import Mathlib

/-!
Verification development for the Evernote MCP server (JavaScript sources).

Each definition below is a shallow embedding of a function from the
repository; the doc comment of every definition names the source file and
function it embeds.  Library calls made by the source (Node's `crypto`
HMAC, `Date` formatting) are modelled as explicit function parameters,
since their code is not part of the repository.
-/

namespace EvernoteMcp

/-! ### Percent encoding (JavaScript `encodeURIComponent`) -/

/-- Uppercase hexadecimal digit, used by `encodeURIComponent`'s `%XX` escapes. -/
def hexDigitUpper (n : Nat) : Char :=
  if n < 10 then Char.ofNat (48 + n) else Char.ofNat (55 + n)

/-- UTF-8 byte sequence of a Unicode code point, as `encodeURIComponent`
percent-encodes non-unreserved characters byte by byte. -/
def utf8Bytes (n : Nat) : List Nat :=
  if n < 0x80 then [n]
  else if n < 0x800 then [0xC0 + n / 0x40, 0x80 + n % 0x40]
  else if n < 0x10000 then
    [0xE0 + n / 0x1000, 0x80 + (n / 0x40) % 0x40, 0x80 + n % 0x40]
  else
    [0xF0 + n / 0x40000, 0x80 + (n / 0x1000) % 0x40,
     0x80 + (n / 0x40) % 0x40, 0x80 + n % 0x40]

/-- Characters `encodeURIComponent` leaves unescaped:
`A-Z a-z 0-9 - _ . ! ~ * ' ( )`. -/
def isUriUnreserved (c : Char) : Bool :=
  c.isAlpha || c.isDigit ||
    ['-', '_', '.', '!', '~', '*', '\'', '(', ')'].contains c

/-- `%XX` escape of one byte. -/
def percentByte (b : Nat) : List Char :=
  ['%', hexDigitUpper (b / 16), hexDigitUpper (b % 16)]

/-- JavaScript's `encodeURIComponent`: unreserved characters pass through,
every other character is replaced by the `%XX` escapes of its UTF-8 bytes. -/
def encodeURIComponent (s : String) : String :=
  String.mk (s.data.flatMap fun c =>
    if isUriUnreserved c then [c] else (utf8Bytes c.toNat).flatMap percentByte)

/-! ### OAuth signature (`auth.js`, `generateSignature`) -/

/-- Embeds `generateSignature` from `auth.js`:

```
function generateSignature(method, baseUrl, params, tokenSecret = '') {
  const sortedParams = Object.keys(params)
    .sort()
    .map(key => `${encodeURIComponent(key)}=${encodeURIComponent(params[key])}`)
    .join('&');
  const signatureBaseString = [
    method.toUpperCase(),
    encodeURIComponent(baseUrl),
    encodeURIComponent(sortedParams)
  ].join('&');
  const signingKey = `${encodeURIComponent(EVERNOTE_CONFIG.consumerSecret)}&${encodeURIComponent(tokenSecret)}`;
  const signature = crypto.createHmac('sha1', signingKey)
    .update(signatureBaseString).digest('base64');
  return signature;
}
```

The parameter object is modelled as an association list with distinct keys
(JavaScript objects cannot hold duplicate keys); `Object.keys(...).sort()`
is modelled by sorting the key list; `params[key]` by association-list
lookup.  The Node `crypto` HMAC-SHA1/base64 pipeline is library code, not
repository code, and is passed in as the function `hmacSha1Base64`
(first argument: key, second: message); `EVERNOTE_CONFIG.consumerSecret`
comes from the environment and is likewise a parameter. -/
def generateSignature (hmacSha1Base64 : String → String → String)
    (consumerSecret : String) (method baseUrl : String)
    (params : List (String × String)) (tokenSecret : String := "") : String :=
  let sortedParams := String.intercalate "&"
    ((List.insertionSort (fun a b : String => a ≤ b) (params.map Prod.fst)).map
      fun key => encodeURIComponent key ++ "=" ++
        encodeURIComponent ((params.lookup key).getD ""))
  let signatureBaseString := String.intercalate "&"
    [method.toUpper, encodeURIComponent baseUrl, encodeURIComponent sortedParams]
  let signingKey :=
    encodeURIComponent consumerSecret ++ "&" ++ encodeURIComponent tokenSecret
  hmacSha1Base64 signingKey signatureBaseString

/-- Association-list lookup only depends on the underlying multiset of
pairs when the keys are distinct. -/
theorem lookup_eq_of_perm {α β : Type} [DecidableEq α] {l l' : List (α × β)}
    (h : l.Perm l') :
    (l.map Prod.fst).Nodup → ∀ a, l.lookup a = l'.lookup a := by
  induction h with
  | nil => intro _ _; rfl
  | cons x p ih =>
    intro hnd a
    obtain ⟨k, v⟩ := x
    rw [List.map_cons] at hnd
    cases hak : (a == k) <;> simp only [List.lookup, hak]
    exact ih (List.nodup_cons.mp hnd).2 a
  | swap x y l =>
    intro hnd a
    obtain ⟨k₁, v₁⟩ := x
    obtain ⟨k₂, v₂⟩ := y
    rw [List.map_cons, List.map_cons] at hnd
    have hk : ¬ k₂ = k₁ := by
      have := (List.nodup_cons.mp hnd).1
      simp only [List.mem_cons] at this
      intro e; exact this (Or.inl e)
    cases h₂ : (a == k₂) <;> cases h₁ : (a == k₁) <;>
      simp only [List.lookup, h₁, h₂]
    exact absurd ((eq_of_beq h₂).symm.trans (eq_of_beq h₁)) hk
  | trans p q ih ih' =>
    intro hnd a
    have hnd' : _ := ((p.map Prod.fst).nodup_iff).mp hnd
    exact (ih hnd a).trans (ih' hnd' a)

/-- C1: for every HTTP method, base URL, token secret and every pair of
parameter mappings that contain exactly the same key-value pairs
(a permutation with distinct keys, as in a JavaScript object),
`generateSignature` returns the identical signature: the mapping is
sorted into ascending key order, percent-encoded and `&`-joined before
HMAC-SHA1 signing with the key
`percentEncode(consumerSecret) & "&" & percentEncode(tokenSecret)`. -/
theorem generateSignature_perm_invariant
    (hmac : String → String → String)
    (consumerSecret method baseUrl tokenSecret : String)
    (P P' : List (String × String)) (hperm : P.Perm P')
    (hnd : (P.map Prod.fst).Nodup) :
    generateSignature hmac consumerSecret method baseUrl P tokenSecret =
      generateSignature hmac consumerSecret method baseUrl P' tokenSecret := by
  have hkeys : List.insertionSort (fun a b : String => a ≤ b) (P.map Prod.fst)
      = List.insertionSort (fun a b : String => a ≤ b) (P'.map Prod.fst) := by
    apply List.eq_of_perm_of_sorted (r := fun a b : String => a ≤ b)
    · exact ((List.perm_insertionSort _ _).trans (hperm.map Prod.fst)).trans
        (List.perm_insertionSort _ _).symm
    · exact List.sorted_insertionSort _ _
    · exact List.sorted_insertionSort _ _
  have hfun : (fun key : String => encodeURIComponent key ++ "=" ++
        encodeURIComponent ((P.lookup key).getD ""))
      = fun key : String => encodeURIComponent key ++ "=" ++
        encodeURIComponent ((P'.lookup key).getD "") := by
    funext key
    rw [lookup_eq_of_perm hperm hnd key]
  simp only [generateSignature]
  rw [hkeys, hfun]

/-- Witness for C1 at a concrete input: the mappings
`[("b","2"),("a","1")]` and `[("a","1"),("b","2")]` are permutations of
each other with distinct keys and sign identically. -/
theorem generateSignature_perm_invariant_witness :
    ([(("b" : String), ("2" : String)), ("a", "1")]).Perm [("a", "1"), ("b", "2")] ∧
    ([(("b" : String), ("2" : String)), ("a", "1")].map Prod.fst).Nodup ∧
    generateSignature (fun k m => k ++ "#" ++ m) "csecret" "get" "https://www.evernote.com/oauth"
        [("b", "2"), ("a", "1")] "tsecret" =
      generateSignature (fun k m => k ++ "#" ++ m) "csecret" "get" "https://www.evernote.com/oauth"
        [("a", "1"), ("b", "2")] "tsecret" :=
  ⟨by decide, by decide,
    generateSignature_perm_invariant (fun k m => k ++ "#" ++ m) "csecret" "get"
      "https://www.evernote.com/oauth" "tsecret"
      [("b", "2"), ("a", "1")] [("a", "1"), ("b", "2")] (by decide) (by decide)⟩

/-! ### OAuth token responses (`auth.js`, `getRequestToken` / `getAccessToken`) -/

/-- JavaScript truthiness of an optional string field: `undefined`
(modelled `none`) and the empty string are the falsy cases. -/
def falsyStr : Option String → Bool
  | none => true
  | some s => s == ""

/-- A parsed URL-encoded OAuth response body (`querystring.parse`): a field
missing from the body is `none`, a field present but empty is `some ""`. -/
structure OAuthResponse where
  oauth_token : Option String := none
  oauth_token_secret : Option String := none
  edam_shard : Option String := none
  edam_userId : Option String := none
  edam_expires : Option String := none
  edam_noteStoreUrl : Option String := none
  edam_webApiUrlPrefix : Option String := none
deriving DecidableEq

/-- The access-token data assembled by `getAccessToken` in `auth.js`. -/
structure AccessTokenData where
  accessToken : String
  tokenSecret : String
  edamShard : Option String := none
  edamUserId : Option String := none
  edamExpires : Option String := none
  edamNoteStoreUrl : Option String := none
  edamWebApiUrlPrefix : Option String := none
deriving DecidableEq

/-- Embeds the response-validation half of `getRequestToken` in `auth.js`
(the network call itself is external):

```
if (!response.oauth_token || !response.oauth_token_secret) {
  throw new Error('Invalid response from Evernote: missing token data');
}
return { token: response.oauth_token, tokenSecret: response.oauth_token_secret };
```
-/
def getRequestTokenResult (response : OAuthResponse) :
    Except String (String × String) :=
  if falsyStr response.oauth_token || falsyStr response.oauth_token_secret then
    .error "Invalid response from Evernote: missing token data"
  else
    .ok (response.oauth_token.getD "", response.oauth_token_secret.getD "")

/-- Embeds the response-validation half of `getAccessToken` in `auth.js`:

```
if (!response.oauth_token) {
  throw new Error('Invalid response from Evernote: missing access token');
}
if (response.oauth_token_secret === undefined) {
  throw new Error('Invalid response from Evernote: missing token secret field');
}
return {
  accessToken: response.oauth_token,
  tokenSecret: response.oauth_token_secret || '',
  edamShard: response.edam_shard, ...
};
```

Note the two distinct guards: a falsy (missing or empty) primary token is
an error; the secondary secret is an error only when the field is
`undefined`, i.e. entirely absent — a present-but-empty secret passes and
is normalized to the empty string by `|| ''`. -/
def getAccessTokenResult (response : OAuthResponse) :
    Except String AccessTokenData :=
  if falsyStr response.oauth_token then
    .error "Invalid response from Evernote: missing access token"
  else if response.oauth_token_secret = none then
    .error "Invalid response from Evernote: missing token secret field"
  else
    .ok { accessToken := response.oauth_token.getD ""
          tokenSecret :=
            if falsyStr response.oauth_token_secret then ""
            else response.oauth_token_secret.getD ""
          edamShard := response.edam_shard
          edamUserId := response.edam_userId
          edamExpires := response.edam_expires
          edamNoteStoreUrl := response.edam_noteStoreUrl
          edamWebApiUrlPrefix := response.edam_webApiUrlPrefix }

/-- C2, counterexample: the claim asserts that an access-token response
body with the `oauth_token_secret` field entirely absent does NOT raise;
on the code it does raise (`response.oauth_token_secret === undefined`
throws "missing token secret field"). -/
theorem getAccessToken_missing_secret_raises :
    getAccessTokenResult { oauth_token := some "tok" } =
      .error "Invalid response from Evernote: missing token secret field" := rfl

/-- C2 as amended: the request-token step raises whenever
`oauth_token_secret` is missing or empty; the access-token step raises
when the field is entirely absent, but tolerates a present-but-empty
secret, which it normalizes to the empty string. -/
theorem oauth_secret_field_handling (r₁ r₂ r₃ : OAuthResponse)
    (h₁ : falsyStr r₁.oauth_token_secret = true)
    (h₂ : r₂.oauth_token_secret = none)
    (h₃ : r₃.oauth_token_secret = some "")
    (ht₃ : falsyStr r₃.oauth_token = false) :
    getRequestTokenResult r₁ =
      .error "Invalid response from Evernote: missing token data" ∧
    (falsyStr r₂.oauth_token = false →
      getAccessTokenResult r₂ =
        .error "Invalid response from Evernote: missing token secret field") ∧
    ∃ d, getAccessTokenResult r₃ = .ok d ∧ d.tokenSecret = "" := by
  refine ⟨?_, ?_, ?_⟩
  · simp [getRequestTokenResult, h₁]
  · intro ht₂
    simp [getAccessTokenResult, ht₂, h₂]
  · refine ⟨{ accessToken := r₃.oauth_token.getD "", tokenSecret := ""
              edamShard := r₃.edam_shard, edamUserId := r₃.edam_userId
              edamExpires := r₃.edam_expires
              edamNoteStoreUrl := r₃.edam_noteStoreUrl
              edamWebApiUrlPrefix := r₃.edam_webApiUrlPrefix }, ?_, rfl⟩
    simp [getAccessTokenResult, ht₃, h₃, falsyStr.eq_def]

/-- Witness for the amended C2 at concrete responses. -/
theorem oauth_secret_field_handling_witness :
    getRequestTokenResult { oauth_token := some "tok" } =
      .error "Invalid response from Evernote: missing token data" ∧
    (falsyStr (OAuthResponse.oauth_token { oauth_token := some "tok" }) = false →
      getAccessTokenResult { oauth_token := some "tok" } =
        .error "Invalid response from Evernote: missing token secret field") ∧
    ∃ d, getAccessTokenResult
        { oauth_token := some "tok", oauth_token_secret := some "" } = .ok d ∧
      d.tokenSecret = "" :=
  oauth_secret_field_handling
    { oauth_token := some "tok" } { oauth_token := some "tok" }
    { oauth_token := some "tok", oauth_token_secret := some "" }
    rfl rfl rfl rfl

/-! ### OAuth callback endpoint (`index.js`, `app.get('/oauth/callback')`) -/

/-- JavaScript `delete obj[key]` on the `oauthState` object, modelled on an
association list with distinct keys. -/
def deleteKey (st : List (String × String)) (k : String) :
    List (String × String) :=
  st.filter fun p => ¬ p.1 = k

/-- Outcome of the `/oauth/callback` route: the HTTP status it answers. -/
inductive CallbackResult where
  | badRequest (msg : String)
  | success
  | serverError
deriving DecidableEq

/-- Embeds the `/oauth/callback` handler in `index.js`:

```
const { oauth_token, oauth_verifier } = req.query;
if (!oauth_token || !oauth_verifier) {
  return res.status(400).json({ error: 'Missing OAuth parameters' });
}
const requestTokenSecret = oauthState[oauth_token];
if (!requestTokenSecret) {
  return res.status(400).json({ error: 'Invalid OAuth state' });
}
const tokenData = await auth.handleCallback(oauth_token, oauth_verifier, requestTokenSecret);
delete oauthState[oauth_token];
res.json({ message: 'OAuth authentication successful!', success: true });
// catch: res.status(500).json({ error: 'OAuth authentication failed' });
```

`oauthState` is the module-level object mapping request tokens to request
token secrets, modelled as an association list; the handler returns the
response together with the state left behind.  `auth.handleCallback`
(token exchange plus credential storage, both involving network and file
system) is passed in as `exchange`; when it throws, control jumps to the
`catch` block and the `delete` statement is **not** executed. -/
def oauthCallback (exchange : String → String → String → Except String AccessTokenData)
    (st : List (String × String)) (oauth_token oauth_verifier : Option String) :
    CallbackResult × List (String × String) :=
  if falsyStr oauth_token || falsyStr oauth_verifier then
    (.badRequest "Missing OAuth parameters", st)
  else
    let tok := oauth_token.getD ""
    if falsyStr (st.lookup tok) then
      (.badRequest "Invalid OAuth state", st)
    else
      match exchange tok (oauth_verifier.getD "") ((st.lookup tok).getD "") with
      | .ok _ => (.success, deleteKey st tok)
      | .error _ => (.serverError, st)

/-- C3, counterexample: the claim asserts the pending entry is deleted
after the token-exchange attempt regardless of success or failure; on a
failing exchange, with state `[("t", "s")]` and callback token `"t"`, the
entry survives (the `delete` is skipped by the thrown exception). -/
theorem oauthCallback_failed_exchange_keeps_entry :
    (oauthCallback (fun _ _ _ => .error "HTTP 401: oauth_problem=signature_invalid")
        [("t", "s")] (some "t") (some "v")).2.lookup "t" = some "s" := rfl

/-- C3 as amended: for a callback carrying a known request token, the
entry is deleted upon a successful exchange, but on a failed exchange the
handler answers 500 and leaves the state — including the entry — intact. -/
theorem oauthCallback_entry_lifecycle
    (exchange : String → String → String → Except String AccessTokenData)
    (st : List (String × String)) (tok v secret : String)
    (htok : tok ≠ "") (hv : v ≠ "")
    (hsec : st.lookup tok = some secret) (hsec' : secret ≠ "") :
    (∀ d, exchange tok v secret = .ok d →
      oauthCallback exchange st (some tok) (some v) =
        (.success, deleteKey st tok)) ∧
    (∀ e, exchange tok v secret = .error e →
      oauthCallback exchange st (some tok) (some v) = (.serverError, st)) := by
  have hft : falsyStr (some tok) = false := by
    simp [falsyStr, htok]
  have hfv : falsyStr (some v) = false := by
    simp [falsyStr, hv]
  have hfs : falsyStr (some secret) = false := by
    simp [falsyStr, hsec']
  constructor
  · intro d hd
    simp [oauthCallback, hft, hfv, hfs, hsec, hd]
  · intro e he
    simp [oauthCallback, hft, hfv, hfs, hsec, he]

/-- Witness for the amended C3 at concrete inputs: one succeeding and one
failing exchange over the state `[("t", "s")]`. -/
theorem oauthCallback_entry_lifecycle_witness :
    (oauthCallback (fun _ _ _ => .ok { accessToken := "a", tokenSecret := "" })
        [("t", "s")] (some "t") (some "v")) =
      (.success, deleteKey [("t", "s")] "t") ∧
    (oauthCallback (fun _ _ _ => .error "boom")
        [("t", "s")] (some "t") (some "v")) = (.serverError, [("t", "s")]) :=
  ⟨(oauthCallback_entry_lifecycle (fun _ _ _ => .ok { accessToken := "a", tokenSecret := "" })
      [("t", "s")] "t" "v" "s" (by decide) (by decide) rfl (by decide)).1
    { accessToken := "a", tokenSecret := "" } rfl,
   (oauthCallback_entry_lifecycle (fun _ _ _ => .error "boom")
      [("t", "s")] "t" "v" "s" (by decide) (by decide) rfl (by decide)).2
    "boom" rfl⟩

/-! ### Credential storage and expiration (`auth.js`,
`getTokenFromEnv` / `checkTokenExpiration`) -/

/-- The environment variables holding the stored credential; an unset
variable is `none`. -/
structure Env where
  EVERNOTE_ACCESS_TOKEN : Option String := none
  EVERNOTE_TOKEN_SECRET : Option String := none
  EVERNOTE_EDAM_SHARD : Option String := none
  EVERNOTE_EDAM_USER_ID : Option String := none
  EVERNOTE_EDAM_EXPIRES : Option String := none
  EVERNOTE_EDAM_NOTE_STORE_URL : Option String := none
  EVERNOTE_EDAM_WEB_API_URL_PREFIX : Option String := none
deriving DecidableEq

/-- The token record returned by `getTokenFromEnv` in `auth.js`. -/
structure StoredToken where
  accessToken : String
  tokenSecret : String := ""
  edamShard : String := ""
  edamUserId : String := ""
  edamExpires : String := ""
  edamNoteStoreUrl : String := ""
  edamWebApiUrlPrefix : String := ""
deriving DecidableEq

/-- Embeds `getTokenFromEnv` from `auth.js`:

```
const accessToken = process.env.EVERNOTE_ACCESS_TOKEN;
if (accessToken) {
  return { accessToken, tokenSecret: process.env.EVERNOTE_TOKEN_SECRET || '', ... };
}
return null;
```

Every secondary field defaults to the empty string via `|| ''`. -/
def getTokenFromEnv (env : Env) : Option StoredToken :=
  if falsyStr env.EVERNOTE_ACCESS_TOKEN then none
  else some
    { accessToken := env.EVERNOTE_ACCESS_TOKEN.getD ""
      tokenSecret := env.EVERNOTE_TOKEN_SECRET.getD ""
      edamShard := env.EVERNOTE_EDAM_SHARD.getD ""
      edamUserId := env.EVERNOTE_EDAM_USER_ID.getD ""
      edamExpires := env.EVERNOTE_EDAM_EXPIRES.getD ""
      edamNoteStoreUrl := env.EVERNOTE_EDAM_NOTE_STORE_URL.getD ""
      edamWebApiUrlPrefix := env.EVERNOTE_EDAM_WEB_API_URL_PREFIX.getD "" }

/-- The status record returned by `checkTokenExpiration` in `auth.js`. -/
structure TokenStatus where
  hasToken : Bool
  isExpired : Bool
  message : String
  expirationDate : Option String := none
  timeUntilExpiration : Option Int := none
  tokenData : Option StoredToken := none

/-- Embeds `checkTokenExpiration` from `auth.js`:

```
const tokenData = await getTokenFromEnv();
if (!tokenData) {
  return { hasToken: false, isExpired: false,
           message: 'No stored authentication tokens found' };
}
if (!tokenData.edamExpires) {
  return { hasToken: true, isExpired: false,
           message: 'Token expiration date not available (assuming valid)', tokenData };
}
const now = Date.now();
const expirationDate = new Date(parseInt(tokenData.edamExpires));
const isExpired = now > expirationDate.getTime();
const timeUntilExpiration = expirationDate.getTime() - now;
return { hasToken: true, isExpired, expirationDate: expirationDate.toISOString(),
         timeUntilExpiration: isExpired ? 0 : timeUntilExpiration,
         message: isExpired ? `Token expired on ...` : `Token valid until ...`,
         tokenData: isExpired ? null : tokenData };
```

`Date.now()` is the parameter `now`; `parseInt` and the two `Date`
formatters are JavaScript library functions passed in as parameters
(`parseIntJS` returns `none` where `parseInt` returns `NaN`, in which
case `toISOString` throws and the surrounding `catch` answers the
error-shaped status). -/
def checkTokenExpiration (parseIntJS : String → Option Int)
    (fmtISO fmtLocale : Int → String) (now : Int) (env : Env) : TokenStatus :=
  match getTokenFromEnv env with
  | none =>
    { hasToken := false, isExpired := false
      message := "No stored authentication tokens found" }
  | some tokenData =>
    if tokenData.edamExpires = "" then
      { hasToken := true, isExpired := false
        message := "Token expiration date not available (assuming valid)"
        tokenData := some tokenData }
    else
      match parseIntJS tokenData.edamExpires with
      | none =>
        { hasToken := false, isExpired := false
          message := "Error checking token status" }
      | some ms =>
        let isExpired := now > ms
        { hasToken := true, isExpired := isExpired
          expirationDate := some (fmtISO ms)
          timeUntilExpiration := some (if isExpired then 0 else ms - now)
          message := if isExpired then "Token expired on " ++ fmtLocale ms
            else "Token valid until " ++ fmtLocale ms
          tokenData := if isExpired then none else some tokenData }

/-- C7: a stored credential (truthy access token) whose expiry variable is
unset or empty yields `hasToken: true`, `isExpired: false` and the
"expiration unknown, assuming valid" message; with no credential stored at
all the status reports `hasToken: false`. -/
theorem checkTokenExpiration_no_expiry
    (parseIntJS : String → Option Int) (fmtISO fmtLocale : Int → String)
    (now : Int) (env env' : Env)
    (htok : falsyStr env.EVERNOTE_ACCESS_TOKEN = false)
    (hexp : falsyStr env.EVERNOTE_EDAM_EXPIRES = true)
    (hnone : env'.EVERNOTE_ACCESS_TOKEN = none) :
    (checkTokenExpiration parseIntJS fmtISO fmtLocale now env).hasToken = true ∧
    (checkTokenExpiration parseIntJS fmtISO fmtLocale now env).isExpired = false ∧
    (checkTokenExpiration parseIntJS fmtISO fmtLocale now env).message =
      "Token expiration date not available (assuming valid)" ∧
    (checkTokenExpiration parseIntJS fmtISO fmtLocale now env').hasToken = false := by
  have hgd : env.EVERNOTE_EDAM_EXPIRES.getD "" = "" := by
    cases h : env.EVERNOTE_EDAM_EXPIRES with
    | none => rfl
    | some s =>
      rw [h] at hexp
      simpa [falsyStr] using hexp
  have hfn : falsyStr (none : Option String) = true := rfl
  refine ⟨?_, ?_, ?_, ?_⟩ <;>
    simp [checkTokenExpiration, getTokenFromEnv, htok, hgd, hnone, hfn]

/-- Witness for C7 at concrete environments: a credential with no expiry
variable, and an empty environment. -/
theorem checkTokenExpiration_no_expiry_witness :
    (checkTokenExpiration (fun _ => none) (fun _ => "") (fun _ => "") 1700000000000
        { EVERNOTE_ACCESS_TOKEN := some "S=s1:U=x:E=tok" }).hasToken = true ∧
    (checkTokenExpiration (fun _ => none) (fun _ => "") (fun _ => "") 1700000000000
        { EVERNOTE_ACCESS_TOKEN := some "S=s1:U=x:E=tok" }).isExpired = false ∧
    (checkTokenExpiration (fun _ => none) (fun _ => "") (fun _ => "") 1700000000000
        { EVERNOTE_ACCESS_TOKEN := some "S=s1:U=x:E=tok" }).message =
      "Token expiration date not available (assuming valid)" ∧
    (checkTokenExpiration (fun _ => none) (fun _ => "") (fun _ => "") 1700000000000
        {}).hasToken = false :=
  checkTokenExpiration_no_expiry (fun _ => none) (fun _ => "") (fun _ => "")
    1700000000000 { EVERNOTE_ACCESS_TOKEN := some "S=s1:U=x:E=tok" } {}
    (by decide) rfl rfl

/-! ### Search query builder (`tools/createSearch.js`, `buildSearchQuery`) -/

/-- JavaScript truthiness of an optional array field: unlike strings, an
array is truthy even when empty; only `undefined` is falsy. -/
def falsyArr : Option (List String) → Bool
  | none => true
  | some _ => false

/-- The flat argument object of the search tools.  Absent fields are
`none`; the numeric fields are modelled as integers. -/
structure SearchArgs where
  query : Option String := none
  notebookName : Option String := none
  notebookGuid : Option String := none
  tags : Option (List String) := none
  createdAfter : Option String := none
  updatedAfter : Option String := none
  maxResults : Option Int := none
  offset : Option Int := none
deriving DecidableEq

/-- Embeds `buildSearchQuery` from `tools/createSearch.js`:

```
let searchTerms = [];
if (args.query) { searchTerms.push(args.query); }
if (args.notebookName) { searchTerms.push(`notebook:"${args.notebookName}"`); }
if (args.tags && Array.isArray(args.tags)) {
  args.tags.forEach(tag => { searchTerms.push(`tag:"${tag}"`); });
}
if (args.createdAfter) {
  const date = new Date(args.createdAfter).toISOString().split('T')[0];
  searchTerms.push(`created:${date}`);
}
if (args.updatedAfter) { ... `updated:${date}` ... }
return searchTerms.join(' ');
```

`new Date(x).toISOString().split('T')[0]` is JavaScript date-library
behaviour and is passed in as the parameter `isoDate`. -/
def buildSearchQuery (isoDate : String → String) (args : SearchArgs) : String :=
  let searchTerms : List String :=
    (if falsyStr args.query then [] else [args.query.getD ""]) ++
    (if falsyStr args.notebookName then []
     else ["notebook:\"" ++ args.notebookName.getD "" ++ "\""]) ++
    (match args.tags with
     | some tags => tags.map fun tag => "tag:\"" ++ tag ++ "\""
     | none => []) ++
    (if falsyStr args.createdAfter then []
     else ["created:" ++ isoDate (args.createdAfter.getD "")]) ++
    (if falsyStr args.updatedAfter then []
     else ["updated:" ++ isoDate (args.updatedAfter.getD "")])
  String.intercalate " " searchTerms

/-- The clause list as the specification words it: the raw query text,
then `notebook:"<name>"` if present, then one `tag:"<name>"` clause per
tag in input order, then `created:<date>` if given, then `updated:<date>`
if given.  Stated from the spec, to be compared with `buildSearchQuery`. -/
def specClauseList (isoDate : String → String) (args : SearchArgs) : List String :=
  (match args.query with
   | some q => if q = "" then [] else [q]
   | none => []) ++
  (match args.notebookName with
   | some nb => if nb = "" then [] else ["notebook:\"" ++ nb ++ "\""]
   | none => []) ++
  (args.tags.getD []).map (fun tag => "tag:\"" ++ tag ++ "\"") ++
  (match args.createdAfter with
   | some d => if d = "" then [] else ["created:" ++ isoDate d]
   | none => []) ++
  (match args.updatedAfter with
   | some d => if d = "" then [] else ["updated:" ++ isoDate d]
   | none => [])

/-- C4: `buildSearchQuery` emits clauses in the fixed order the spec
gives, joined by single spaces, and on
`{query: "boat", tags: ["repair","urgent"]}` produces exactly
`boat tag:"repair" tag:"urgent"`. -/
theorem buildSearchQuery_clause_order :
    (∀ (isoDate : String → String) (args : SearchArgs),
      buildSearchQuery isoDate args =
        String.intercalate " " (specClauseList isoDate args)) ∧
    (∀ isoDate : String → String,
      buildSearchQuery isoDate
          { query := some "boat", tags := some ["repair", "urgent"] } =
        "boat tag:\"repair\" tag:\"urgent\"") := by
  constructor
  · intro isoDate args
    simp only [buildSearchQuery, specClauseList]
    congr 1
    rcases args with ⟨q, nb, ng, tg, ca, ua, mr, off⟩
    cases q <;> cases nb <;> cases tg <;> cases ca <;> cases ua <;>
      simp [falsyStr]
  · intro isoDate
    rfl

/-- Embeds the at-least-one-criterion validation at the top of
`createSearch` in `tools/createSearch.js`:

```
if (!args.query && !args.notebookName && !args.tags) {
  throw new Error('At least one search criteria must be provided (query, notebookName, or tags)');
}
```

Returns `true` when the request is not rejected. -/
def createSearchAccepts (args : SearchArgs) : Bool :=
  !(falsyStr args.query && falsyStr args.notebookName && falsyArr args.tags)

/-- C10: an argument object whose `tags` field is a present-but-empty
array and whose other criteria are absent passes `createSearch`'s
at-least-one-criterion validation (an empty array is truthy), and
`buildSearchQuery` returns the empty string for it. -/
theorem createSearch_empty_tags_accepted
    (isoDate : String → String) (args : SearchArgs)
    (hq : args.query = none) (hnb : args.notebookName = none)
    (ht : args.tags = some [])
    (hca : args.createdAfter = none) (hua : args.updatedAfter = none) :
    createSearchAccepts args = true ∧ buildSearchQuery isoDate args = "" := by
  constructor
  · simp [createSearchAccepts, ht, falsyArr]
  · simp [buildSearchQuery, hq, hnb, ht, hca, hua, falsyStr]
    rfl

/-- Witness for C10 at the concrete argument object `{tags: []}`. -/
theorem createSearch_empty_tags_accepted_witness :
    createSearchAccepts { tags := some [] } = true ∧
    buildSearchQuery (fun s => s) { tags := some [] } = "" :=
  createSearch_empty_tags_accepted (fun s => s) { tags := some [] }
    rfl rfl rfl rfl rfl

/-! ### Search result cache (`tools/getSearch.js`,
`cacheSearchResults` / `getCachedResults`) -/

/-- One entry of the `searchCache` map; `ρ` is the type of the stored
search-result payload. -/
structure CacheEntry (ρ : Type) where
  results : ρ
  originalArgs : SearchArgs
  timestamp : Int
  expires : Int
deriving DecidableEq

/-- JavaScript `Map.set`: replaces the value of an existing key in place,
otherwise appends the binding in insertion order. -/
def mapSet {γ : Type} (m : List (String × γ)) (k : String) (v : γ) :
    List (String × γ) :=
  if m.any (fun p => p.1 = k) then
    m.map fun p => if p.1 = k then (k, v) else p
  else m ++ [(k, v)]

/-- JavaScript `Map.delete`. -/
def mapDelete {γ : Type} (m : List (String × γ)) (k : String) :
    List (String × γ) :=
  m.filter fun p => ¬ p.1 = k

/-- Embeds `cacheSearchResults` from `tools/getSearch.js`:

```
searchCache.set(searchId, {
  results, originalArgs,
  timestamp: Date.now(),
  expires: Date.now() + 60 * 60 * 1000   // Cache for 1 hour
});
```

`Date.now()` is the parameter `now`. -/
def cacheSearchResults {ρ : Type} (cache : List (String × CacheEntry ρ))
    (searchId : String) (results : ρ) (originalArgs : SearchArgs)
    (now : Int) : List (String × CacheEntry ρ) :=
  mapSet cache searchId
    { results := results, originalArgs := originalArgs
      timestamp := now, expires := now + 60 * 60 * 1000 }

/-- Embeds `getCachedResults` from `tools/getSearch.js`:

```
const cached = searchCache.get(searchId);
if (!cached) { return null; }
if (Date.now() > cached.expires) {
  searchCache.delete(searchId);
  return null;
}
return cached;
```

Returns the looked-up entry (or `none`) together with the cache map left
behind (lazy deletion of an expired entry). -/
def getCachedResults {ρ : Type} (cache : List (String × CacheEntry ρ))
    (searchId : String) (now : Int) :
    Option (CacheEntry ρ) × List (String × CacheEntry ρ) :=
  match cache.lookup searchId with
  | none => (none, cache)
  | some cached =>
    if now > cached.expires then (none, mapDelete cache searchId)
    else (some cached, cache)

/-- Lookup after the replace branch of `mapSet` finds the new value. -/
theorem lookup_map_replace {γ : Type} (m : List (String × γ)) (k : String)
    (v : γ) (h : m.any (fun p => p.1 = k) = true) :
    (m.map fun p => if p.1 = k then (k, v) else p).lookup k = some v := by
  induction m with
  | nil => simp at h
  | cons p m ih =>
    obtain ⟨k', v'⟩ := p
    have hmap : ((k', v') :: m).map (fun p => if p.1 = k then (k, v) else p) =
        (if k' = k then (k, v) else (k', v')) ::
          m.map (fun p => if p.1 = k then (k, v) else p) := rfl
    by_cases hp : k' = k
    · rw [hmap, if_pos hp]
      simp [List.lookup]
    · have hk : (k == k') = false := by
        simpa using Ne.symm hp
      rw [hmap, if_neg hp]
      simp only [List.lookup, hk]
      apply ih
      simp only [List.any_cons, Bool.or_eq_true, decide_eq_true_eq] at h
      rcases h with h | h
      · exact absurd h hp
      · exact h

/-- Lookup after the append branch of `mapSet` finds the new value. -/
theorem lookup_append_new {γ : Type} (m : List (String × γ)) (k : String)
    (v : γ) (h : m.any (fun p => p.1 = k) = false) :
    (m ++ [(k, v)]).lookup k = some v := by
  induction m with
  | nil => simp [List.lookup]
  | cons p m ih =>
    obtain ⟨k', v'⟩ := p
    simp only [List.any_cons, Bool.or_eq_false_iff, decide_eq_false_iff_not] at h
    have hk : (k == k') = false := by
      simpa using Ne.symm h.1
    simp only [List.cons_append, List.lookup, hk]
    exact ih h.2

/-- `Map.set` followed by `Map.get` of the same key finds the new value. -/
theorem lookup_mapSet {γ : Type} (m : List (String × γ)) (k : String) (v : γ) :
    (mapSet m k v).lookup k = some v := by
  unfold mapSet
  rcases ha : m.any (fun p => p.1 = k) with _ | _
  · simp only [Bool.false_eq_true, if_false]
    exact lookup_append_new m k v ha
  · simp only [if_true]
    exact lookup_map_replace m k v ha

/-- C5: storing results under an identifier and looking the identifier up
at the same instant returns the stored entry; and any entry whose
expiration instant lies strictly before the lookup time is reported
absent and lazily deleted, with no sweep needed. -/
theorem cache_put_get_and_lazy_expiry (ρ : Type)
    (cache cache' : List (String × CacheEntry ρ)) (searchId id' : String)
    (results : ρ) (args : SearchArgs) (now now' : Int) (e : CacheEntry ρ)
    (hlk : cache'.lookup id' = some e) (hexp : e.expires < now') :
    getCachedResults (cacheSearchResults cache searchId results args now)
        searchId now =
      (some { results := results, originalArgs := args, timestamp := now,
              expires := now + 60 * 60 * 1000 },
        cacheSearchResults cache searchId results args now) ∧
    getCachedResults cache' id' now' = (none, mapDelete cache' id') := by
  constructor
  · unfold getCachedResults cacheSearchResults
    rw [lookup_mapSet]
    have hne : ¬ now > now + 60 * 60 * 1000 := by omega
    simp [hne]
  · unfold getCachedResults
    rw [hlk]
    have hgt : now' > e.expires := hexp
    simp [hgt]

/-- Witness for C5 at a concrete cache: a fresh store-then-lookup, and an
entry one millisecond past its expiration. -/
theorem cache_put_get_and_lazy_expiry_witness :
    getCachedResults (cacheSearchResults ([] : List (String × CacheEntry Nat))
        "search_x" 7 {} 1000) "search_x" 1000 =
      (some { results := 7, originalArgs := {}, timestamp := 1000,
              expires := 1000 + 60 * 60 * 1000 },
        cacheSearchResults [] "search_x" 7 {} 1000) ∧
    getCachedResults
        [("search_y", ({ results := 3, originalArgs := {}, timestamp := 0,
                         expires := 3600000 } : CacheEntry Nat))]
        "search_y" 3600001 =
      (none, mapDelete
        [("search_y", ({ results := 3, originalArgs := {}, timestamp := 0,
                         expires := 3600000 } : CacheEntry Nat))] "search_y") :=
  cache_put_get_and_lazy_expiry Nat []
    [("search_y", { results := 3, originalArgs := {}, timestamp := 0,
                    expires := 3600000 })]
    "search_x" "search_y" 7 {} 1000 3600001
    { results := 3, originalArgs := {}, timestamp := 0, expires := 3600000 }
    rfl (by decide)

/-! ### Search identifier (`tools/getSearch.js`, `generateSearchId`) -/

/-- Lowercase hexadecimal digit, used by `JSON.stringify`'s `\uXXXX`
escapes for control characters. -/
def hexDigitLower (n : Nat) : Char :=
  if n < 10 then Char.ofNat (48 + n) else Char.ofNat (87 + n)

/-- `JSON.stringify` escaping of one character inside a string literal. -/
def jsonEscapeChar (c : Char) : List Char :=
  if c = '"' then ['\\', '"']
  else if c = '\\' then ['\\', '\\']
  else if c.toNat = 8 then ['\\', 'b']
  else if c.toNat = 9 then ['\\', 't']
  else if c.toNat = 10 then ['\\', 'n']
  else if c.toNat = 12 then ['\\', 'f']
  else if c.toNat = 13 then ['\\', 'r']
  else if c.toNat < 32 then
    ['\\', 'u', '0', '0', hexDigitLower (c.toNat / 16), hexDigitLower (c.toNat % 16)]
  else [c]

/-- `JSON.stringify` of a string value. -/
def jsonString (s : String) : String :=
  "\"" ++ String.mk (s.data.flatMap jsonEscapeChar) ++ "\""

/-- The object serialization `JSON.stringify` produces inside
`generateSearchId` (fixed key insertion order, no spaces). -/
def searchIdString (args : SearchArgs) : String :=
  "\x7b\"query\":" ++ jsonString (args.query.getD "") ++
  ",\"notebookName\":" ++ jsonString (args.notebookName.getD "") ++
  ",\"notebookGuid\":" ++ jsonString (args.notebookGuid.getD "") ++
  ",\"tags\":[" ++
    String.intercalate "," ((args.tags.getD []).map jsonString) ++ "]" ++
  ",\"createdAfter\":" ++ jsonString (args.createdAfter.getD "") ++
  ",\"updatedAfter\":" ++ jsonString (args.updatedAfter.getD "") ++
  ",\"maxResults\":" ++
    (match args.maxResults with
     | some m => if m = 0 then (20 : Int) else m
     | none => 20).repr ++
  ",\"offset\":" ++ (args.offset.getD 0).repr ++ "\x7d"

/-- Wrap an integer to a signed 32-bit value, as JavaScript's bitwise
operators do (`hash & hash` in the source). -/
def toInt32 (n : Int) : Int :=
  let m := n % 4294967296
  if m < 2147483648 then m else m - 4294967296

/-- One step of the rolling hash in `generateSearchId`:
`hash = ((hash << 5) - hash) + char; hash = hash & hash`.
`hash << 5` wraps the shifted value to 32 signed bits; the subtraction
and addition are exact; `hash & hash` wraps the result again. -/
def hashStep (h : Int) (c : Nat) : Int :=
  toInt32 (toInt32 (h * 32) - h + (c : Int))

/-- UTF-16 code units of a character (`charCodeAt` walks these). -/
def utf16Units (c : Char) : List Nat :=
  let n := c.toNat
  if n < 0x10000 then [n]
  else [0xD800 + (n - 0x10000) / 0x400, 0xDC00 + (n - 0x10000) % 0x400]

/-- The rolling 32-bit hash of `generateSearchId` over a string's UTF-16
code units, starting from 0. -/
def jsHash (s : String) : Int :=
  (s.data.flatMap utf16Units).foldl hashStep 0

/-- Base-36 digit as produced by JavaScript `Number.prototype.toString(36)`. -/
def base36Digit (n : Nat) : Char :=
  if n < 10 then Char.ofNat (48 + n) else Char.ofNat (87 + n)

/-- Digit-accumulating loop of the base-36 rendering.  The first argument
is recursion fuel; any fuel larger than the number of base-36 digits
(for instance the number itself plus one) yields the full rendering. -/
def natToBase36Go : Nat → Nat → List Char → List Char
  | 0, _, acc => acc
  | fuel + 1, n, acc =>
    if n < 36 then base36Digit n :: acc
    else natToBase36Go fuel (n / 36) (base36Digit (n % 36) :: acc)

/-- Base-36 rendering of a natural number (`Math.abs(hash).toString(36)`). -/
def natToBase36 (n : Nat) : String :=
  String.mk (natToBase36Go (n + 1) n [])

/-- Embeds `generateSearchId` from `tools/getSearch.js`:

```
const searchString = JSON.stringify({
  query: args.query || '', notebookName: args.notebookName || '',
  notebookGuid: args.notebookGuid || '', tags: args.tags || [],
  createdAfter: args.createdAfter || '', updatedAfter: args.updatedAfter || '',
  maxResults: args.maxResults || 20, offset: args.offset || 0
});
let hash = 0;
for (let i = 0; i < searchString.length; i++) {
  const char = searchString.charCodeAt(i);
  hash = ((hash << 5) - hash) + char;
  hash = hash & hash; // Convert to 32-bit integer
}
return `search_${Math.abs(hash).toString(36)}`;
```
-/
def generateSearchId (args : SearchArgs) : String :=
  "search_" ++ natToBase36 (jsHash (searchIdString args)).natAbs

/-- Single-occurrence arithmetic form of `toInt32`, used to evaluate the
rolling hash on concrete inputs without duplicating the accumulator. -/
theorem toInt32_eq_fast (n : Int) :
    toInt32 n = (n + 2147483648) % 4294967296 - 2147483648 := by
  unfold toInt32
  by_cases h : n % 4294967296 < 2147483648 <;>
    simp only [h, if_true, if_false] <;> omega

/-- Hash step in which the accumulator occurs exactly once. -/
def hashStepFast (h : Int) (c : Nat) : Int :=
  (31 * h + (c : Int) + 2147483648) % 4294967296 - 2147483648

/-- `hashStep` agrees with its single-occurrence form:
`((h << 5) - h) + c` wrapped twice equals `31 * h + c` wrapped once. -/
theorem hashStep_eq_fast (h : Int) (c : Nat) : hashStep h c = hashStepFast h c := by
  unfold hashStep hashStepFast
  rw [toInt32_eq_fast, toInt32_eq_fast]
  omega

/-- Evaluation form of `jsHash`. -/
theorem jsHash_eq_fast (s : String) :
    jsHash s = (s.data.flatMap utf16Units).foldl hashStepFast 0 := by
  unfold jsHash
  rw [funext fun h => funext fun c => hashStep_eq_fast h c]

/-- Evaluation form of `generateSearchId`. -/
theorem generateSearchId_eq_fast (args : SearchArgs) :
    generateSearchId args = "search_" ++
      natToBase36 (((searchIdString args).data.flatMap utf16Units).foldl
        hashStepFast 0).natAbs := by
  unfold generateSearchId
  rw [jsHash_eq_fast]

set_option maxRecDepth 40000

/-- C9: `generateSearchId` hashes the tag list in its given order (no
sorting), so the filter objects `{tags:["a","b"]}` and `{tags:["b","a"]}`
-- all other fields defaulted -- receive different cache identifiers. -/
theorem generateSearchId_tags_order_sensitive :
    generateSearchId { tags := some ["a", "b"] } ≠
      generateSearchId { tags := some ["b", "a"] } := by
  rw [generateSearchId_eq_fast, generateSearchId_eq_fast]
  decide

/-- C6, counterexample: two argument objects identical except for their
(distinct) offsets whose 32-bit rolling hashes coincide, so
`generateSearchId` assigns them the *same* cache identifier. -/
theorem generateSearchId_offset_collision :
    (10721006 : Int) ≠ 81000710 ∧
    generateSearchId { offset := some 10721006 } =
      generateSearchId { offset := some 81000710 } := by
  constructor
  · decide
  · rw [generateSearchId_eq_fast, generateSearchId_eq_fast]
    decide

/-- C6 as amended: two searches differing only in `offset` always produce
identical `buildSearchQuery` output (offset is not part of the query
grammar), but their cache identifiers are not guaranteed distinct: the
32-bit rolling hash can collide, as the counterexample offsets show. -/
theorem buildSearchQuery_ignores_offset (isoDate : String → String)
    (args : SearchArgs) (o o' : Option Int) :
    buildSearchQuery isoDate { args with offset := o } =
      buildSearchQuery isoDate { args with offset := o' } := rfl

/-! ### ENML to plain text (`tools/getNoteContent.js`, `enmlToPlainText`)

`enmlToPlainText` is a chain of JavaScript `String.replace(regex, repl)`
calls with the `g` flag.  Each regex of the chain is embedded as a
*matcher*: a function that, at one position, either matches (returning the
replacement text and the rest of the input after the match, exactly as the
backtracking regex engine would) or fails.  `jsReplace` then performs the
global scan: repeatedly try the matcher at the current position; on a
match emit the replacement and continue after it, otherwise emit the
current character and advance by one. -/

/-- One global-replace scan step list; the first argument is recursion
fuel.  Every matcher of this file consumes at least one character on a
match, so fuel equal to the input length never runs out. -/
def replaceScan (try_ : List Char → Option (List Char × List Char)) :
    Nat → List Char → List Char
  | 0, s => s
  | fuel + 1, s =>
    match try_ s with
    | some (repl, rest) => repl ++ replaceScan try_ fuel rest
    | none =>
      match s with
      | [] => []
      | c :: cs => c :: replaceScan try_ fuel cs

/-- JavaScript `input.replace(regex, repl)` with the `g` flag, for the
matcher embedding `regex`/`repl`. -/
def jsReplace (try_ : List Char → Option (List Char × List Char))
    (s : List Char) : List Char :=
  replaceScan try_ s.length s

/-- A matcher consumes at least one character whenever it matches. -/
def Consumes (try_ : List Char → Option (List Char × List Char)) : Prop :=
  ∀ s r rest, try_ s = some (r, rest) → rest.length < s.length

/-- A consuming matcher cannot match the empty input. -/
theorem consumes_nil {try_ : List Char → Option (List Char × List Char)}
    (hc : Consumes try_) : try_ [] = none := by
  cases h : try_ [] with
  | none => rfl
  | some pr =>
    obtain ⟨r, rest⟩ := pr
    have := hc [] r rest h
    simp at this

/-- A consuming matcher's scan leaves the empty input empty at any fuel. -/
theorem replaceScan_nil {try_ : List Char → Option (List Char × List Char)}
    (hc : Consumes try_) (fuel : Nat) : replaceScan try_ fuel [] = [] := by
  cases fuel with
  | zero => rfl
  | succ fuel => simp [replaceScan, consumes_nil hc]

/-- For a consuming matcher, any fuel at least the input length gives the
same scan result. -/
theorem replaceScan_fuel {try_ : List Char → Option (List Char × List Char)}
    (hc : Consumes try_) :
    ∀ (fuel fuel' : Nat) (s : List Char), s.length ≤ fuel →
      s.length ≤ fuel' → replaceScan try_ fuel s = replaceScan try_ fuel' s := by
  intro fuel
  induction fuel with
  | zero =>
    intro fuel' s hs _
    have hnil : s = [] := List.eq_nil_of_length_eq_zero (by omega)
    subst hnil
    rw [replaceScan_nil hc, replaceScan_nil hc]
  | succ fuel ih =>
    intro fuel' s hs hs'
    cases fuel' with
    | zero =>
      have hnil : s = [] := List.eq_nil_of_length_eq_zero (by omega)
      subst hnil
      rw [replaceScan_nil hc, replaceScan_nil hc]
    | succ fuel' =>
      simp only [replaceScan]
      cases htry : try_ s with
      | some pr =>
        obtain ⟨r, rest⟩ := pr
        have hlt := hc s r rest htry
        exact congrArg (r ++ ·) (ih fuel' rest (by omega) (by omega))
      | none =>
        cases s with
        | nil => rfl
        | cons c cs =>
          simp only [List.length_cons] at hs hs'
          exact congrArg (c :: ·) (ih fuel' cs (by omega) (by omega))

/-- Scan step when the matcher fails at the current position. -/
theorem jsReplace_no_match {try_ : List Char → Option (List Char × List Char)}
    {c : Char} {cs : List Char} (h : try_ (c :: cs) = none) :
    jsReplace try_ (c :: cs) = c :: jsReplace try_ cs := by
  unfold jsReplace
  simp only [List.length_cons, replaceScan, h]

/-- Scan step when the matcher matches at the current position. -/
theorem jsReplace_match {try_ : List Char → Option (List Char × List Char)}
    (hc : Consumes try_) {s r rest : List Char}
    (h : try_ s = some (r, rest)) :
    jsReplace try_ s = r ++ jsReplace try_ rest := by
  have hlt := hc s r rest h
  unfold jsReplace
  cases s with
  | nil => simp at hlt
  | cons c cs =>
    simp only [List.length_cons, replaceScan, h]
    exact congrArg (r ++ ·) (replaceScan_fuel hc _ _ rest (by simp at hlt ⊢; omega) le_rfl)

/-- The matcher fails at any position starting with `c`. -/
def HeadFail (try_ : List Char → Option (List Char × List Char))
    (c : Char) : Prop :=
  ∀ rest, try_ (c :: rest) = none

/-- `u` scans to `u'` independently of what follows it: no match started
inside `u` reaches past it. -/
def ProcessesTo (try_ : List Char → Option (List Char × List Char))
    (u u' : List Char) : Prop :=
  ∀ y, jsReplace try_ (u ++ y) = u' ++ jsReplace try_ y

theorem processesTo_nil {try_ : List Char → Option (List Char × List Char)} :
    ProcessesTo try_ [] [] := fun _ => rfl

theorem processesTo_append {try_ : List Char → Option (List Char × List Char)}
    {a a' b b' : List Char} (ha : ProcessesTo try_ a a')
    (hb : ProcessesTo try_ b b') : ProcessesTo try_ (a ++ b) (a' ++ b') := by
  intro y
  rw [List.append_assoc, ha (b ++ y), hb y, List.append_assoc]

/-- A position whose failure is decided inside the concrete prefix
`c :: m` passes `c` through; the scanner then continues inside `m`. -/
theorem processesTo_fail_cons {try_ : List Char → Option (List Char × List Char)}
    {c : Char} {m m' : List Char}
    (h : ∀ y, try_ ((c :: m) ++ y) = none)
    (hm : ProcessesTo try_ m m') : ProcessesTo try_ (c :: m) (c :: m') := by
  intro y
  rw [List.cons_append, jsReplace_no_match (by simpa using h y), hm y]
  rfl

/-- A complete match contained in the concrete segment `m`. -/
theorem processesTo_match {try_ : List Char → Option (List Char × List Char)}
    (hc : Consumes try_) {m r : List Char}
    (h : ∀ y, try_ (m ++ y) = some (r, y)) :
    ProcessesTo try_ m r := by
  intro y
  rw [jsReplace_match hc (h y)]

/-- A run of characters at which the matcher always fails by its head
character passes through unchanged. -/
theorem processesTo_of_headFail {try_ : List Char → Option (List Char × List Char)}
    {u : List Char} (h : ∀ c ∈ u, HeadFail try_ c) :
    ProcessesTo try_ u u := by
  induction u with
  | nil => exact processesTo_nil
  | cons c cs ih =>
    intro y
    rw [List.cons_append, jsReplace_no_match (h c (by simp) (cs ++ y)),
      ih (fun d hd => h d (by simp [hd])) y]
    rfl

/-- Running a whole-string scan through a `ProcessesTo` derivation. -/
theorem jsReplace_run {try_ : List Char → Option (List Char × List Char)}
    {s s' : List Char} (h : ProcessesTo try_ s s') :
    jsReplace try_ s = s' := by
  have := h []
  simpa [jsReplace, replaceScan] using this

/-! #### Character classes and matcher building blocks -/

/-- JavaScript's `\s` class (ECMAScript WhiteSpace plus LineTerminator). -/
def isJsWs (c : Char) : Bool :=
  c = ' ' || c = '\t' || c = '\n' || c.toNat = 11 || c.toNat = 12 || c = '\r' ||
  c.toNat = 0xa0 || c.toNat = 0x1680 ||
  (0x2000 ≤ c.toNat && c.toNat ≤ 0x200a) ||
  c.toNat = 0x2028 || c.toNat = 0x2029 || c.toNat = 0x202f ||
  c.toNat = 0x205f || c.toNat = 0x3000 || c.toNat = 0xfeff

/-- JavaScript's `.` (anything but a line terminator). -/
def isDotChar (c : Char) : Bool :=
  !(c = '\n' || c = '\r' || c.toNat = 0x2028 || c.toNat = 0x2029)

/-- The two quote characters of the `["']` classes. -/
def isQuote (c : Char) : Bool :=
  c = '"' || c = '\''

/-- Case-insensitive match of the (lowercase or non-letter) pattern
character `c`, as the `/i` flag treats ASCII. -/
def ciChar (c : Char) : Char → Bool := fun x =>
  x = c || (c.isLower && x.toNat + 32 = c.toNat)

/-- The predicate list of a literal pattern fragment under `/i`. -/
def ciSpec (s : String) : List (Char → Bool) :=
  s.data.map ciChar

/-- Match a list of single-character predicates against the head of the
input, returning the rest. -/
def matchLits : List (Char → Bool) → List Char → Option (List Char)
  | [], s => some s
  | _ :: _, [] => none
  | p :: ps, c :: cs => if p c then matchLits ps cs else none

/-- Split at the first `'>'`: the “`[^>]*>`” idiom.  Returns the content
before the first `'>'` and the rest after it; fails when no `'>'`
remains. -/
def splitGt : List Char → Option (List Char × List Char)
  | [] => none
  | c :: cs =>
    if c = '>' then some ([], cs)
    else (splitGt cs).map fun pr => (c :: pr.1, pr.2)

/-- Matcher for a pattern of the shape `lead[^>]*>` replaced by `repl`. -/
def tryTag (lead : List (Char → Bool)) (repl : List Char)
    (s : List Char) : Option (List Char × List Char) :=
  (matchLits lead s).bind fun rest =>
    (splitGt rest).map fun pr => (repl, pr.2)

/-- Matcher for an exact (classwise) literal pattern replaced by `repl`. -/
def tryLits (lits : List (Char → Bool)) (repl : List Char)
    (s : List Char) : Option (List Char × List Char) :=
  (matchLits lits s).map fun rest => (repl, rest)

/-- Matcher for `<\?xml[^>]*\?>`: the `[^>]*` cannot cross a `'>'`, so
the closing `?>` must sit at the first `'>'`, whose preceding character
must be `'?'`. -/
def tryXmlDecl (s : List Char) : Option (List Char × List Char) :=
  (matchLits (ciSpec "<?xml") s).bind fun rest =>
    (splitGt rest).bind fun pr =>
      if pr.1.getLast? = some '?' then some ([], pr.2) else none

/-- Matcher for `<\/?en-note[^>]*>`: the greedy `/?` tries the slash
first, which here amounts to trying the closing form before the opening
form. -/
def tryEnNote (s : List Char) : Option (List Char × List Char) :=
  match tryTag (ciSpec "</en-note") [] s with
  | some r => some r
  | none => tryTag (ciSpec "<en-note") [] s

/-- The attempt of `alt=["']([^"']*)["'][^>]*>` at exactly this position
inside an `en-media` tag, returning the captured alt text and the rest
after the closing `'>'`.  The greedy capture `[^"']*` runs to the next
quote (it may cross a `'>'`); the trailing `[^>]*>` then ends the match
at the first `'>'` after the closing quote. -/
def attemptAlt (u : List Char) : Option (List Char × List Char) :=
  (matchLits (ciSpec "alt=") u).bind fun r1 =>
    match r1 with
    | q :: r2 =>
      if isQuote q then
        let cap := r2.takeWhile fun x => !isQuote x
        match r2.drop cap.length with
        | q2 :: r4 =>
          if isQuote q2 then
            (splitGt r4).map fun pr => (cap, pr.2)
          else none
        | [] => none
      else none
    | [] => none

/-- Search of the backtracking position for `alt=` inside
`<en-media[^>]*alt=…`: the greedy `[^>]*` places `alt=` at the *last*
feasible start before the first `'>'` of the tag. -/
def goAlt : List Char → Option (List Char × List Char)
  | [] => none
  | c :: cs =>
    if c = '>' then none
    else
      match goAlt cs with
      | some r => some r
      | none => attemptAlt (c :: cs)

/-- Matcher for `<en-media[^>]*alt=["']([^"']*)["'][^>]*>` replaced by
the captured group `$1`. -/
def tryMediaAlt (s : List Char) : Option (List Char × List Char) :=
  (matchLits (ciSpec "<en-media") s).bind goAlt

/-- Scan for the first `</en-crypt>` reachable without crossing a line
terminator: the lazy `.*?` of `<en-crypt[^>]*>.*?<\/en-crypt>`. -/
def findCryptClose : List Char → Option (List Char)
  | [] => none
  | c :: cs =>
    match matchLits (ciSpec "</en-crypt>") (c :: cs) with
    | some rest => some rest
    | none => if isDotChar c then findCryptClose cs else none

/-- Matcher for `<en-crypt[^>]*>.*?<\/en-crypt>` replaced by
`[Encrypted Content]`. -/
def tryCrypt (s : List Char) : Option (List Char × List Char) :=
  (matchLits (ciSpec "<en-crypt") s).bind fun rest =>
    (splitGt rest).bind fun pr =>
      (findCryptClose pr.2).map fun after =>
        ("[Encrypted Content]".data, after)

/-- Require one quote character (`["']`). -/
def headQuote : List Char → Option (List Char)
  | c :: cs => if isQuote c then some cs else none
  | [] => none

/-- Require at least one whitespace character and consume the greedy
whitespace run (`\s+`; the following literal starts with a non-whitespace
character, so no backtracking into the run can succeed). -/
def headWs : List Char → Option (List Char)
  | c :: cs => if isJsWs c then some (cs.dropWhile isJsWs) else none
  | [] => none

/-- Matcher for `<en-todo\s+checked=["']true["'][^>]*>` replaced by `☑ `. -/
def tryTodoChecked (s : List Char) : Option (List Char × List Char) :=
  (matchLits (ciSpec "<en-todo") s).bind fun r1 =>
    (headWs r1).bind fun r2 =>
      (matchLits (ciSpec "checked=") r2).bind fun r3 =>
        (headQuote r3).bind fun r4 =>
          (matchLits (ciSpec "true") r4).bind fun r5 =>
            (headQuote r5).bind fun r6 =>
              (splitGt r6).map fun pr => ("☑ ".data, pr.2)

/-- Matcher for `<br\s*\/?>` replaced by a newline.  The greedy `\s*`
takes the whole whitespace run; shorter runs would leave a whitespace
character where `/` or `>` is required, so no backtracking applies. -/
def tryBr (s : List Char) : Option (List Char × List Char) :=
  (matchLits (ciSpec "<br") s).bind fun rest =>
    match rest.dropWhile isJsWs with
    | '/' :: '>' :: r => some (['\n'], r)
    | '>' :: r => some (['\n'], r)
    | _ => none

/-- Matcher for `\n\s*\n\s*\n` replaced by `\n\n`.  Every matched
character is whitespace, so the match lives inside the maximal whitespace
run at the current position; the two greedy `\s*` make it span from the
first to the last newline of that run, which must contain at least three
newlines. -/
def tryNl3 (s : List Char) : Option (List Char × List Char) :=
  match s with
  | '\n' :: _ =>
    let run := s.takeWhile isJsWs
    if 3 ≤ (run.filter fun c => c = '\n').length then
      let pref := run.length - (run.reverse.takeWhile fun c => ¬ c = '\n').length
      some (['\n', '\n'], s.drop pref)
    else none
  | _ => none

/-- Matcher for `[ \t]+` replaced by a single space. -/
def trySpaceTab (s : List Char) : Option (List Char × List Char) :=
  match s with
  | c :: cs =>
    if c = ' ' || c = '\t' then
      some ([' '], cs.dropWhile fun x => x = ' ' || x = '\t')
    else none
  | [] => none

/-- `replace(/^\s+|\s+$/g, '')`: with no `m` flag the two alternatives
can only match the leading and the trailing whitespace run, so the
replace trims both ends. -/
def jsTrimWs (s : List Char) : List Char :=
  ((s.dropWhile isJsWs).reverse.dropWhile isJsWs).reverse

/-- Case-sensitive literal pattern fragment (the entity replaces carry no
`/i` flag). -/
def csSpec (s : String) : List (Char → Bool) :=
  s.data.map fun c => fun x => x = c

/-- Single exact character. -/
def chIs (c : Char) : Char → Bool := fun x => x = c

/-- Character range class such as `[1-6]`. -/
def chRange (lo hi : Char) : Char → Bool := fun x => lo ≤ x && x ≤ hi

/-- Character set class such as `[uo]` under `/i`. -/
def chOf (cs : List Char) : Char → Bool := fun x => cs.contains x

/-- Matcher for `<\/?[uo]l[^>]*>` (the greedy `/?` tries the closing form
first). -/
def tryUlOl (s : List Char) : Option (List Char × List Char) :=
  match tryTag [chIs '<', chIs '/', chOf ['u', 'U', 'o', 'O'], ciChar 'l']
      ['\n'] s with
  | some r => some r
  | none => tryTag [chIs '<', chOf ['u', 'U', 'o', 'O'], ciChar 'l'] ['\n'] s

/-- Matcher for `<\/?table[^>]*>`. -/
def tryTable (s : List Char) : Option (List Char × List Char) :=
  match tryTag (ciSpec "</table") ['\n'] s with
  | some r => some r
  | none => tryTag (ciSpec "<table") ['\n'] s

/-- Embeds `enmlToPlainText` from `tools/getNoteContent.js`: the guard
`if (!enml) return ''` followed by the thirty-three chained
`replace` calls, in source order (each matcher's doc comment names its
regex). -/
def enmlToPlainText (enml : String) : String :=
  if enml = "" then ""
  else
    let l := enml.data
    let l := jsReplace (tryTag (ciSpec "<!doctype") []) l
    let l := jsReplace tryXmlDecl l
    let l := jsReplace tryEnNote l
    let l := jsReplace tryMediaAlt l
    let l := jsReplace (tryTag (ciSpec "<en-media") "[Media]".data) l
    let l := jsReplace tryCrypt l
    let l := jsReplace tryTodoChecked l
    let l := jsReplace (tryTag (ciSpec "<en-todo") "☐ ".data) l
    let l := jsReplace tryBr l
    let l := jsReplace (tryLits (ciSpec "</p>") "\n\n".data) l
    let l := jsReplace (tryTag (ciSpec "<p") []) l
    let l := jsReplace (tryLits (ciSpec "</div>") ['\n']) l
    let l := jsReplace (tryTag (ciSpec "<div") []) l
    let l := jsReplace
      (tryLits (ciSpec "</h" ++ [chRange '1' '6', chIs '>']) "\n\n".data) l
    let l := jsReplace (tryTag (ciSpec "<h" ++ [chRange '1' '6']) []) l
    let l := jsReplace (tryLits (ciSpec "</li>") ['\n']) l
    let l := jsReplace (tryTag (ciSpec "<li") "• ".data) l
    let l := jsReplace tryUlOl l
    let l := jsReplace (tryLits (ciSpec "</td>") ['\t']) l
    let l := jsReplace (tryLits (ciSpec "</tr>") ['\n']) l
    let l := jsReplace (tryTag [chIs '<', ciChar 't', chOf ['d', 'D', 'h', 'H', 'r', 'R']] []) l
    let l := jsReplace tryTable l
    let l := jsReplace (tryTag [chIs '<'] []) l
    let l := jsReplace (tryLits (csSpec "&nbsp;") [' ']) l
    let l := jsReplace (tryLits (csSpec "&amp;") ['&']) l
    let l := jsReplace (tryLits (csSpec "&lt;") ['<']) l
    let l := jsReplace (tryLits (csSpec "&gt;") ['>']) l
    let l := jsReplace (tryLits (csSpec "&quot;") ['"']) l
    let l := jsReplace (tryLits (csSpec "&#39;") ['\'']) l
    let l := jsReplace (tryLits (csSpec "&apos;") ['\'']) l
    let l := jsReplace tryNl3 l
    let l := jsTrimWs l
    let l := jsReplace trySpaceTab l
    String.mk l

/-! #### Consumption and head-failure lemmas for the matchers -/

theorem matchLits_length :
    ∀ (ps : List (Char → Bool)) (s r : List Char),
      matchLits ps s = some r → r.length + ps.length = s.length := by
  intro ps
  induction ps with
  | nil =>
    intro s r h
    have h' : some s = some r := h
    cases h'
    simp
  | cons p ps ih =>
    intro s r h
    cases s with
    | nil => exact absurd h (by simp [matchLits])
    | cons c cs =>
      have h' : (if p c = true then matchLits ps cs else none) = some r := h
      by_cases hp : p c = true
      · rw [if_pos hp] at h'
        have := ih cs r h'
        simp only [List.length_cons]
        omega
      · rw [if_neg hp] at h'
        simp at h'

theorem splitGt_length :
    ∀ (s : List Char) (pr : List Char × List Char),
      splitGt s = some pr → pr.2.length < s.length := by
  intro s
  induction s with
  | nil => intro pr h; exact absurd h (by simp [splitGt])
  | cons c cs ih =>
    intro pr h
    have h' : (if c = '>' then some ([], cs)
        else (splitGt cs).map fun pr => (c :: pr.1, pr.2)) = some pr := h
    by_cases hc : c = '>'
    · rw [if_pos hc] at h'
      cases h'
      simp
    · rw [if_neg hc] at h'
      cases hs : splitGt cs with
      | none => rw [hs] at h'; simp at h'
      | some pr' =>
        rw [hs] at h'
        simp only [Option.map_some', Option.some.injEq] at h'
        have := ih pr' hs
        rw [← h']
        simp only [List.length_cons]
        omega

theorem length_dropWhile_le (p : Char → Bool) (s : List Char) :
    (s.dropWhile p).length ≤ s.length := by
  induction s with
  | nil => simp
  | cons c cs ih =>
    rw [List.dropWhile_cons]
    by_cases h : p c = true
    · rw [if_pos h]
      simp only [List.length_cons]
      omega
    · rw [if_neg h]

theorem headQuote_length (s r : List Char) (h : headQuote s = some r) :
    r.length < s.length := by
  cases s with
  | nil => exact absurd h (by simp [headQuote])
  | cons c cs =>
    have h' : (if isQuote c = true then some cs else none) = some r := h
    by_cases hq : isQuote c = true
    · rw [if_pos hq] at h'
      cases h'
      simp
    · rw [if_neg hq] at h'
      simp at h'

theorem headWs_length (s r : List Char) (h : headWs s = some r) :
    r.length < s.length := by
  cases s with
  | nil => exact absurd h (by simp [headWs])
  | cons c cs =>
    have h' : (if isJsWs c = true then some (cs.dropWhile isJsWs) else none) =
        some r := h
    by_cases hw : isJsWs c = true
    · rw [if_pos hw] at h'
      cases h'
      have := length_dropWhile_le isJsWs cs
      simp only [List.length_cons]
      omega
    · rw [if_neg hw] at h'
      simp at h'

theorem consumes_tryTag (lead : List (Char → Bool)) (repl : List Char) :
    Consumes (tryTag lead repl) := by
  intro s r rest h
  simp only [tryTag, Option.bind_eq_some, Option.map_eq_some'] at h
  obtain ⟨r1, hm, pr, hs, hval⟩ := h
  have hl := matchLits_length lead s r1 hm
  have hgt := splitGt_length r1 pr hs
  have hr : pr.2 = rest := congrArg Prod.snd hval
  rw [← hr]
  omega

theorem consumes_tryLits (p : Char → Bool) (ps : List (Char → Bool))
    (repl : List Char) : Consumes (tryLits (p :: ps) repl) := by
  intro s r rest h
  simp only [tryLits, Option.map_eq_some'] at h
  obtain ⟨r1, hm, hval⟩ := h
  have hl := matchLits_length (p :: ps) s r1 hm
  have hr : r1 = rest := congrArg Prod.snd hval
  rw [← hr]
  simp only [List.length_cons] at hl
  omega

theorem consumes_tryXmlDecl : Consumes tryXmlDecl := by
  intro s r rest h
  simp only [tryXmlDecl, Option.bind_eq_some] at h
  obtain ⟨r1, hm, pr, hs, hval⟩ := h
  have hl := matchLits_length _ s r1 hm
  have hgt := splitGt_length r1 pr hs
  by_cases hq : pr.1.getLast? = some '?'
  · rw [if_pos hq] at hval
    have hr : pr.2 = rest := congrArg Prod.snd (Option.some.inj hval)
    rw [← hr]
    omega
  · rw [if_neg hq] at hval
    simp at hval

theorem consumes_tryEnNote : Consumes tryEnNote := by
  intro s r rest h
  unfold tryEnNote at h
  cases h1 : tryTag (ciSpec "</en-note") [] s with
  | some pr =>
    rw [h1] at h
    cases h
    exact consumes_tryTag _ _ s r rest h1
  | none =>
    rw [h1] at h
    exact consumes_tryTag _ _ s r rest h

theorem consumes_tryTodoChecked : Consumes tryTodoChecked := by
  intro s r rest h
  simp only [tryTodoChecked, Option.bind_eq_some, Option.map_eq_some'] at h
  obtain ⟨r1, hm1, r2, hw, r3, hm2, r4, hq1, r5, hm3, r6, hq2, pr, hs, hval⟩ := h
  have l1 := matchLits_length _ s r1 hm1
  have l2 := headWs_length r1 r2 hw
  have l3 := matchLits_length _ r2 r3 hm2
  have l4 := headQuote_length r3 r4 hq1
  have l5 := matchLits_length _ r4 r5 hm3
  have l6 := headQuote_length r5 r6 hq2
  have lgt := splitGt_length r6 pr hs
  have hr : pr.2 = rest := congrArg Prod.snd hval
  rw [← hr]
  omega

theorem consumes_trySpaceTab : Consumes trySpaceTab := by
  intro s r rest h
  cases s with
  | nil => exact absurd h (by simp [trySpaceTab])
  | cons c cs =>
    have h' : (if (c = ' ' || c = '\t') = true then
        some ([' '], cs.dropWhile fun x => x = ' ' || x = '\t')
      else none) = some (r, rest) := h
    by_cases hc : (c = ' ' || c = '\t') = true
    · rw [if_pos hc] at h'
      have hr : (cs.dropWhile fun x => x = ' ' || x = '\t') = rest :=
        congrArg Prod.snd (Option.some.inj h')
      rw [← hr]
      have := length_dropWhile_le (fun x => x = ' ' || x = '\t') cs
      simp only [List.length_cons]
      omega
    · rw [if_neg hc] at h'
      simp at h'

theorem matchLits_head_false {p : Char → Bool} {ps : List (Char → Bool)}
    {c : Char} {cs : List Char} (h : p c = false) :
    matchLits (p :: ps) (c :: cs) = none := by
  rw [matchLits, if_neg (by simp [h])]

theorem ciChar_head_false {a c : Char} (hlow : a.isLower = false)
    (h : ¬ c = a) : ciChar a c = false := by
  simp [ciChar, hlow, h]

theorem chIs_head_false {a c : Char} (h : ¬ c = a) : chIs a c = false := by
  simp [chIs, h]

theorem tryTag_headFail {p : Char → Bool} {ps : List (Char → Bool)}
    {repl : List Char} {c : Char} (h : p c = false) :
    HeadFail (tryTag (p :: ps) repl) c := by
  intro rest
  simp [tryTag, matchLits_head_false h]

theorem tryLits_headFail {p : Char → Bool} {ps : List (Char → Bool)}
    {repl : List Char} {c : Char} (h : p c = false) :
    HeadFail (tryLits (p :: ps) repl) c := by
  intro rest
  simp [tryLits, matchLits_head_false h]

theorem headFail_tryXmlDecl {c : Char} (h : ¬ c = '<') :
    HeadFail tryXmlDecl c := by
  intro rest
  have hm : matchLits (ciSpec "<?xml") (c :: rest) = none := by
    rw [show ciSpec "<?xml" = ciChar '<' :: ciSpec "?xml" from rfl]
    exact matchLits_head_false (ciChar_head_false (by decide) h)
  simp [tryXmlDecl, hm]

theorem headFail_tryEnNote {c : Char} (h : ¬ c = '<') :
    HeadFail tryEnNote c := by
  intro rest
  have h1 : tryTag (ciSpec "</en-note") [] (c :: rest) = none := by
    rw [show ciSpec "</en-note" = ciChar '<' :: ciSpec "/en-note" from rfl]
    exact tryTag_headFail (ciChar_head_false (by decide) h) rest
  have h2 : tryTag (ciSpec "<en-note") [] (c :: rest) = none := by
    rw [show ciSpec "<en-note" = ciChar '<' :: ciSpec "en-note" from rfl]
    exact tryTag_headFail (ciChar_head_false (by decide) h) rest
  simp [tryEnNote, h1, h2]

theorem headFail_tryMediaAlt {c : Char} (h : ¬ c = '<') :
    HeadFail tryMediaAlt c := by
  intro rest
  have hm : matchLits (ciSpec "<en-media") (c :: rest) = none := by
    rw [show ciSpec "<en-media" = ciChar '<' :: ciSpec "en-media" from rfl]
    exact matchLits_head_false (ciChar_head_false (by decide) h)
  simp [tryMediaAlt, hm]

theorem headFail_tryCrypt {c : Char} (h : ¬ c = '<') :
    HeadFail tryCrypt c := by
  intro rest
  have hm : matchLits (ciSpec "<en-crypt") (c :: rest) = none := by
    rw [show ciSpec "<en-crypt" = ciChar '<' :: ciSpec "en-crypt" from rfl]
    exact matchLits_head_false (ciChar_head_false (by decide) h)
  simp [tryCrypt, hm]

theorem headFail_tryTodoChecked {c : Char} (h : ¬ c = '<') :
    HeadFail tryTodoChecked c := by
  intro rest
  have hm : matchLits (ciSpec "<en-todo") (c :: rest) = none := by
    rw [show ciSpec "<en-todo" = ciChar '<' :: ciSpec "en-todo" from rfl]
    exact matchLits_head_false (ciChar_head_false (by decide) h)
  simp [tryTodoChecked, hm]

theorem headFail_tryBr {c : Char} (h : ¬ c = '<') : HeadFail tryBr c := by
  intro rest
  have hm : matchLits (ciSpec "<br") (c :: rest) = none := by
    rw [show ciSpec "<br" = ciChar '<' :: ciSpec "br" from rfl]
    exact matchLits_head_false (ciChar_head_false (by decide) h)
  simp [tryBr, hm]

theorem headFail_tryUlOl {c : Char} (h : ¬ c = '<') : HeadFail tryUlOl c := by
  intro rest
  have h1 : tryTag [chIs '<', chIs '/', chOf ['u', 'U', 'o', 'O'], ciChar 'l']
      ['\n'] (c :: rest) = none :=
    tryTag_headFail (chIs_head_false h) rest
  have h2 : tryTag [chIs '<', chOf ['u', 'U', 'o', 'O'], ciChar 'l']
      ['\n'] (c :: rest) = none :=
    tryTag_headFail (chIs_head_false h) rest
  simp [tryUlOl, h1, h2]

theorem headFail_tryTable {c : Char} (h : ¬ c = '<') : HeadFail tryTable c := by
  intro rest
  have h1 : tryTag (ciSpec "</table") ['\n'] (c :: rest) = none := by
    rw [show ciSpec "</table" = ciChar '<' :: ciSpec "/table" from rfl]
    exact tryTag_headFail (ciChar_head_false (by decide) h) rest
  have h2 : tryTag (ciSpec "<table") ['\n'] (c :: rest) = none := by
    rw [show ciSpec "<table" = ciChar '<' :: ciSpec "table" from rfl]
    exact tryTag_headFail (ciChar_head_false (by decide) h) rest
  simp [tryTable, h1, h2]

theorem headFail_tryNl3 {c : Char} (h : ¬ c = '\n') : HeadFail tryNl3 c := by
  intro rest
  unfold tryNl3
  split
  · next x heq =>
    rw [List.cons.injEq] at heq
    exact absurd heq.1 h
  · rfl

theorem headFail_trySpaceTab {c : Char} (h : (c = ' ' || c = '\t') = false) :
    HeadFail trySpaceTab c := by
  intro rest
  have h' : trySpaceTab (c :: rest) = if (c = ' ' || c = '\t') = true then
      some ([' '], rest.dropWhile fun x => x = ' ' || x = '\t')
    else none := rfl
  rw [h', if_neg (by simp [h])]

/-! #### The checklist-plus-paragraph document family (claim C8) -/

/-- An ENML document whose body holds exactly one checked checklist item
followed by one paragraph with text content `t`. -/
def checklistParagraphDoc (t : String) : String :=
  "<?xml version=\"1.0\" encoding=\"UTF-8\"?><!DOCTYPE en-note SYSTEM \"http://xml.evernote.com/pub/enml2.dtd\"><en-note><en-todo checked=\"true\"/><p>"
    ++ t ++ "</p></en-note>"

theorem headFail_doctypeTag {c : Char} (h : ¬ c = '<') :
    HeadFail (tryTag (ciSpec "<!doctype") []) c := by
  rw [show ciSpec "<!doctype" = ciChar '<' :: ciSpec "!doctype" from rfl]
  exact tryTag_headFail (ciChar_head_false (by decide) h)

theorem stage_doctype (u : List Char) (hlt : ∀ c ∈ u, ¬ c = '<') :
    jsReplace (tryTag (ciSpec "<!doctype") [])
      ("<?xml version=\"1.0\" encoding=\"UTF-8\"?><!DOCTYPE en-note SYSTEM \"http://xml.evernote.com/pub/enml2.dtd\"><en-note><en-todo checked=\"true\"/><p>".data
        ++ (u ++ "</p></en-note>".data)) =
    "<?xml version=\"1.0\" encoding=\"UTF-8\"?><en-note><en-todo checked=\"true\"/><p>".data
      ++ (u ++ "</p></en-note>".data) := by
  have pXml : ProcessesTo (tryTag (ciSpec "<!doctype") [])
      "<?xml version=\"1.0\" encoding=\"UTF-8\"?>".data
      "<?xml version=\"1.0\" encoding=\"UTF-8\"?>".data :=
    processesTo_fail_cons (fun y => rfl)
      (processesTo_of_headFail (fun d hd => headFail_doctypeTag (by revert d hd; decide)))
  have pDoc : ProcessesTo (tryTag (ciSpec "<!doctype") [])
      "<!DOCTYPE en-note SYSTEM \"http://xml.evernote.com/pub/enml2.dtd\">".data
      [] :=
    processesTo_match (consumes_tryTag _ _) (fun y => rfl)
  have pNote : ProcessesTo (tryTag (ciSpec "<!doctype") [])
      "<en-note><en-todo checked=\"true\"/><p>".data
      "<en-note><en-todo checked=\"true\"/><p>".data := by
    have p1 : ProcessesTo (tryTag (ciSpec "<!doctype") [])
        "<en-note>".data "<en-note>".data :=
      processesTo_fail_cons (fun y => rfl)
        (processesTo_of_headFail (fun d hd => headFail_doctypeTag (by revert d hd; decide)))
    have p2 : ProcessesTo (tryTag (ciSpec "<!doctype") [])
        "<en-todo checked=\"true\"/>".data "<en-todo checked=\"true\"/>".data :=
      processesTo_fail_cons (fun y => rfl)
        (processesTo_of_headFail (fun d hd => headFail_doctypeTag (by revert d hd; decide)))
    have p3 : ProcessesTo (tryTag (ciSpec "<!doctype") [])
        "<p>".data "<p>".data :=
      processesTo_fail_cons (fun y => rfl)
        (processesTo_of_headFail (fun d hd => headFail_doctypeTag (by revert d hd; decide)))
    exact processesTo_append p1 (processesTo_append p2 p3)
  have pA : ProcessesTo (tryTag (ciSpec "<!doctype") [])
      "<?xml version=\"1.0\" encoding=\"UTF-8\"?><!DOCTYPE en-note SYSTEM \"http://xml.evernote.com/pub/enml2.dtd\"><en-note><en-todo checked=\"true\"/><p>".data
      "<?xml version=\"1.0\" encoding=\"UTF-8\"?><en-note><en-todo checked=\"true\"/><p>".data :=
    processesTo_append pXml (processesTo_append pDoc pNote)
  rw [pA (u ++ "</p></en-note>".data),
    processesTo_of_headFail (fun d hd => headFail_doctypeTag (hlt d hd))
      "</p></en-note>".data,
    show jsReplace (tryTag (ciSpec "<!doctype") []) "</p></en-note>".data =
      "</p></en-note>".data from rfl]

theorem headFail_mediaTag {c : Char} (h : ¬ c = '<') :
    HeadFail (tryTag (ciSpec "<en-media") "[Media]".data) c := by
  rw [show ciSpec "<en-media" = ciChar '<' :: ciSpec "en-media" from rfl]
  exact tryTag_headFail (ciChar_head_false (by decide) h)

theorem headFail_todoTag {c : Char} (h : ¬ c = '<') :
    HeadFail (tryTag (ciSpec "<en-todo") "☐ ".data) c := by
  rw [show ciSpec "<en-todo" = ciChar '<' :: ciSpec "en-todo" from rfl]
  exact tryTag_headFail (ciChar_head_false (by decide) h)

theorem headFail_pClose {c : Char} (h : ¬ c = '<') :
    HeadFail (tryLits (ciSpec "</p>") "\n\n".data) c := by
  rw [show ciSpec "</p>" = ciChar '<' :: ciSpec "/p>" from rfl]
  exact tryLits_headFail (ciChar_head_false (by decide) h)

theorem headFail_pOpen {c : Char} (h : ¬ c = '<') :
    HeadFail (tryTag (ciSpec "<p") []) c := by
  rw [show ciSpec "<p" = ciChar '<' :: ciSpec "p" from rfl]
  exact tryTag_headFail (ciChar_head_false (by decide) h)

theorem headFail_divClose {c : Char} (h : ¬ c = '<') :
    HeadFail (tryLits (ciSpec "</div>") ['\n']) c := by
  rw [show ciSpec "</div>" = ciChar '<' :: ciSpec "/div>" from rfl]
  exact tryLits_headFail (ciChar_head_false (by decide) h)

theorem headFail_divOpen {c : Char} (h : ¬ c = '<') :
    HeadFail (tryTag (ciSpec "<div") []) c := by
  rw [show ciSpec "<div" = ciChar '<' :: ciSpec "div" from rfl]
  exact tryTag_headFail (ciChar_head_false (by decide) h)

theorem headFail_liClose {c : Char} (h : ¬ c = '<') :
    HeadFail (tryLits (ciSpec "</li>") ['\n']) c := by
  rw [show ciSpec "</li>" = ciChar '<' :: ciSpec "/li>" from rfl]
  exact tryLits_headFail (ciChar_head_false (by decide) h)

theorem headFail_liOpen {c : Char} (h : ¬ c = '<') :
    HeadFail (tryTag (ciSpec "<li") "• ".data) c := by
  rw [show ciSpec "<li" = ciChar '<' :: ciSpec "li" from rfl]
  exact tryTag_headFail (ciChar_head_false (by decide) h)

theorem headFail_tdClose {c : Char} (h : ¬ c = '<') :
    HeadFail (tryLits (ciSpec "</td>") ['\t']) c := by
  rw [show ciSpec "</td>" = ciChar '<' :: ciSpec "/td>" from rfl]
  exact tryLits_headFail (ciChar_head_false (by decide) h)

theorem headFail_trClose {c : Char} (h : ¬ c = '<') :
    HeadFail (tryLits (ciSpec "</tr>") ['\n']) c := by
  rw [show ciSpec "</tr>" = ciChar '<' :: ciSpec "/tr>" from rfl]
  exact tryLits_headFail (ciChar_head_false (by decide) h)

theorem headFail_hClose {c : Char} (h : ¬ c = '<') :
    HeadFail (tryLits (ciSpec "</h" ++ [chRange '1' '6', chIs '>']) "\n\n".data) c := by
  rw [show ciSpec "</h" ++ [chRange '1' '6', chIs '>'] =
    ciChar '<' :: (ciSpec "/h" ++ [chRange '1' '6', chIs '>']) from rfl]
  exact tryLits_headFail (ciChar_head_false (by decide) h)

theorem headFail_hOpen {c : Char} (h : ¬ c = '<') :
    HeadFail (tryTag (ciSpec "<h" ++ [chRange '1' '6']) []) c := by
  rw [show ciSpec "<h" ++ [chRange '1' '6'] =
    ciChar '<' :: (ciSpec "h" ++ [chRange '1' '6']) from rfl]
  exact tryTag_headFail (ciChar_head_false (by decide) h)

theorem headFail_tdhr {c : Char} (h : ¬ c = '<') :
    HeadFail (tryTag [chIs '<', ciChar 't', chOf ['d', 'D', 'h', 'H', 'r', 'R']] []) c :=
  tryTag_headFail (chIs_head_false h)

theorem headFail_anyTag {c : Char} (h : ¬ c = '<') :
    HeadFail (tryTag [chIs '<'] []) c :=
  tryTag_headFail (chIs_head_false h)

theorem headFail_nbsp {c : Char} (h : ¬ c = '&') :
    HeadFail (tryLits (csSpec "&nbsp;") [' ']) c := by
  rw [show csSpec "&nbsp;" = (fun x => (x = '&' : Bool)) :: csSpec "nbsp;" from rfl]
  exact tryLits_headFail (by simp [h])

theorem headFail_amp {c : Char} (h : ¬ c = '&') :
    HeadFail (tryLits (csSpec "&amp;") ['&']) c := by
  rw [show csSpec "&amp;" = (fun x => (x = '&' : Bool)) :: csSpec "amp;" from rfl]
  exact tryLits_headFail (by simp [h])

theorem headFail_ltEnt {c : Char} (h : ¬ c = '&') :
    HeadFail (tryLits (csSpec "&lt;") ['<']) c := by
  rw [show csSpec "&lt;" = (fun x => (x = '&' : Bool)) :: csSpec "lt;" from rfl]
  exact tryLits_headFail (by simp [h])

theorem headFail_gtEnt {c : Char} (h : ¬ c = '&') :
    HeadFail (tryLits (csSpec "&gt;") ['>']) c := by
  rw [show csSpec "&gt;" = (fun x => (x = '&' : Bool)) :: csSpec "gt;" from rfl]
  exact tryLits_headFail (by simp [h])

theorem headFail_quotEnt {c : Char} (h : ¬ c = '&') :
    HeadFail (tryLits (csSpec "&quot;") ['"']) c := by
  rw [show csSpec "&quot;" = (fun x => (x = '&' : Bool)) :: csSpec "quot;" from rfl]
  exact tryLits_headFail (by simp [h])

theorem headFail_numApos {c : Char} (h : ¬ c = '&') :
    HeadFail (tryLits (csSpec "&#39;") ['\'']) c := by
  rw [show csSpec "&#39;" = (fun x => (x = '&' : Bool)) :: csSpec "#39;" from rfl]
  exact tryLits_headFail (by simp [h])

theorem headFail_apos {c : Char} (h : ¬ c = '&') :
    HeadFail (tryLits (csSpec "&apos;") ['\'']) c := by
  rw [show csSpec "&apos;" = (fun x => (x = '&' : Bool)) :: csSpec "apos;" from rfl]
  exact tryLits_headFail (by simp [h])

/-- One ENML replace stage over the document shape
`A ++ paragraph-text ++ B`: the concrete prefix processes to its
replaced form, the paragraph text passes through by head failure, and
the concrete suffix computes on its own. -/
theorem jsReplace_stage {try_ : List Char → Option (List Char × List Char)}
    {a a' b b' : List Char} (u : List Char)
    (pA : ProcessesTo try_ a a')
    (hu : ∀ d ∈ u, HeadFail try_ d)
    (hB : jsReplace try_ b = b') :
    jsReplace try_ (a ++ (u ++ b)) = a' ++ (u ++ b') := by
  rw [pA (u ++ b), processesTo_of_headFail hu b, hB]

theorem stage_xmlDecl (u : List Char) (hlt : ∀ c ∈ u, ¬ c = '<') :
    jsReplace (tryXmlDecl)
      ("<?xml version=\"1.0\" encoding=\"UTF-8\"?><en-note><en-todo checked=\"true\"/><p>".data ++ (u ++ "</p></en-note>".data)) =
    "<en-note><en-todo checked=\"true\"/><p>".data ++ (u ++ "</p></en-note>".data) := by
  have p0 : ProcessesTo (tryXmlDecl) "<?xml version=\"1.0\" encoding=\"UTF-8\"?>".data ([] : List Char) :=
    processesTo_match (consumes_tryXmlDecl) (fun y => rfl)
  have p1 : ProcessesTo (tryXmlDecl) "<en-note>".data "<en-note>".data :=
    processesTo_fail_cons (fun y => rfl)
      (processesTo_of_headFail (fun d hd => headFail_tryXmlDecl (by revert d hd; decide)))
  have p2 : ProcessesTo (tryXmlDecl) "<en-todo checked=\"true\"/>".data "<en-todo checked=\"true\"/>".data :=
    processesTo_fail_cons (fun y => rfl)
      (processesTo_of_headFail (fun d hd => headFail_tryXmlDecl (by revert d hd; decide)))
  have p3 : ProcessesTo (tryXmlDecl) "<p>".data "<p>".data :=
    processesTo_fail_cons (fun y => rfl)
      (processesTo_of_headFail (fun d hd => headFail_tryXmlDecl (by revert d hd; decide)))
  exact jsReplace_stage u (processesTo_append p0 (processesTo_append p1 (processesTo_append p2 (p3)))) (fun d hd => headFail_tryXmlDecl (hlt d hd)) rfl

theorem stage_enNote (u : List Char) (hlt : ∀ c ∈ u, ¬ c = '<') :
    jsReplace (tryEnNote)
      ("<en-note><en-todo checked=\"true\"/><p>".data ++ (u ++ "</p></en-note>".data)) =
    "<en-todo checked=\"true\"/><p>".data ++ (u ++ "</p>".data) := by
  have p0 : ProcessesTo (tryEnNote) "<en-note>".data ([] : List Char) :=
    processesTo_match (consumes_tryEnNote) (fun y => rfl)
  have p1 : ProcessesTo (tryEnNote) "<en-todo checked=\"true\"/>".data "<en-todo checked=\"true\"/>".data :=
    processesTo_fail_cons (fun y => rfl)
      (processesTo_of_headFail (fun d hd => headFail_tryEnNote (by revert d hd; decide)))
  have p2 : ProcessesTo (tryEnNote) "<p>".data "<p>".data :=
    processesTo_fail_cons (fun y => rfl)
      (processesTo_of_headFail (fun d hd => headFail_tryEnNote (by revert d hd; decide)))
  exact jsReplace_stage u (processesTo_append p0 (processesTo_append p1 (p2))) (fun d hd => headFail_tryEnNote (hlt d hd)) rfl

theorem stage_mediaAlt (u : List Char) (hlt : ∀ c ∈ u, ¬ c = '<') :
    jsReplace (tryMediaAlt)
      ("<en-todo checked=\"true\"/><p>".data ++ (u ++ "</p>".data)) =
    "<en-todo checked=\"true\"/><p>".data ++ (u ++ "</p>".data) := by
  have p0 : ProcessesTo (tryMediaAlt) "<en-todo checked=\"true\"/>".data "<en-todo checked=\"true\"/>".data :=
    processesTo_fail_cons (fun y => rfl)
      (processesTo_of_headFail (fun d hd => headFail_tryMediaAlt (by revert d hd; decide)))
  have p1 : ProcessesTo (tryMediaAlt) "<p>".data "<p>".data :=
    processesTo_fail_cons (fun y => rfl)
      (processesTo_of_headFail (fun d hd => headFail_tryMediaAlt (by revert d hd; decide)))
  exact jsReplace_stage u (processesTo_append p0 (p1)) (fun d hd => headFail_tryMediaAlt (hlt d hd)) rfl

theorem stage_media (u : List Char) (hlt : ∀ c ∈ u, ¬ c = '<') :
    jsReplace (tryTag (ciSpec "<en-media") "[Media]".data)
      ("<en-todo checked=\"true\"/><p>".data ++ (u ++ "</p>".data)) =
    "<en-todo checked=\"true\"/><p>".data ++ (u ++ "</p>".data) := by
  have p0 : ProcessesTo (tryTag (ciSpec "<en-media") "[Media]".data) "<en-todo checked=\"true\"/>".data "<en-todo checked=\"true\"/>".data :=
    processesTo_fail_cons (fun y => rfl)
      (processesTo_of_headFail (fun d hd => headFail_mediaTag (by revert d hd; decide)))
  have p1 : ProcessesTo (tryTag (ciSpec "<en-media") "[Media]".data) "<p>".data "<p>".data :=
    processesTo_fail_cons (fun y => rfl)
      (processesTo_of_headFail (fun d hd => headFail_mediaTag (by revert d hd; decide)))
  exact jsReplace_stage u (processesTo_append p0 (p1)) (fun d hd => headFail_mediaTag (hlt d hd)) rfl

theorem stage_crypt (u : List Char) (hlt : ∀ c ∈ u, ¬ c = '<') :
    jsReplace (tryCrypt)
      ("<en-todo checked=\"true\"/><p>".data ++ (u ++ "</p>".data)) =
    "<en-todo checked=\"true\"/><p>".data ++ (u ++ "</p>".data) := by
  have p0 : ProcessesTo (tryCrypt) "<en-todo checked=\"true\"/>".data "<en-todo checked=\"true\"/>".data :=
    processesTo_fail_cons (fun y => rfl)
      (processesTo_of_headFail (fun d hd => headFail_tryCrypt (by revert d hd; decide)))
  have p1 : ProcessesTo (tryCrypt) "<p>".data "<p>".data :=
    processesTo_fail_cons (fun y => rfl)
      (processesTo_of_headFail (fun d hd => headFail_tryCrypt (by revert d hd; decide)))
  exact jsReplace_stage u (processesTo_append p0 (p1)) (fun d hd => headFail_tryCrypt (hlt d hd)) rfl

theorem stage_todoChecked (u : List Char) (hlt : ∀ c ∈ u, ¬ c = '<') :
    jsReplace (tryTodoChecked)
      ("<en-todo checked=\"true\"/><p>".data ++ (u ++ "</p>".data)) =
    "☑ <p>".data ++ (u ++ "</p>".data) := by
  have p0 : ProcessesTo (tryTodoChecked) "<en-todo checked=\"true\"/>".data "☑ ".data :=
    processesTo_match (consumes_tryTodoChecked) (fun y => rfl)
  have p1 : ProcessesTo (tryTodoChecked) "<p>".data "<p>".data :=
    processesTo_fail_cons (fun y => rfl)
      (processesTo_of_headFail (fun d hd => headFail_tryTodoChecked (by revert d hd; decide)))
  exact jsReplace_stage u (processesTo_append p0 (p1)) (fun d hd => headFail_tryTodoChecked (hlt d hd)) rfl

theorem stage_todoTag (u : List Char) (hlt : ∀ c ∈ u, ¬ c = '<') :
    jsReplace (tryTag (ciSpec "<en-todo") "☐ ".data)
      ("☑ <p>".data ++ (u ++ "</p>".data)) =
    "☑ <p>".data ++ (u ++ "</p>".data) := by
  have p0 : ProcessesTo (tryTag (ciSpec "<en-todo") "☐ ".data) "☑ ".data "☑ ".data :=
    processesTo_of_headFail (fun d hd => headFail_todoTag (by revert d hd; decide))
  have p1 : ProcessesTo (tryTag (ciSpec "<en-todo") "☐ ".data) "<p>".data "<p>".data :=
    processesTo_fail_cons (fun y => rfl)
      (processesTo_of_headFail (fun d hd => headFail_todoTag (by revert d hd; decide)))
  exact jsReplace_stage u (processesTo_append p0 (p1)) (fun d hd => headFail_todoTag (hlt d hd)) rfl

theorem stage_br (u : List Char) (hlt : ∀ c ∈ u, ¬ c = '<') :
    jsReplace (tryBr)
      ("☑ <p>".data ++ (u ++ "</p>".data)) =
    "☑ <p>".data ++ (u ++ "</p>".data) := by
  have p0 : ProcessesTo (tryBr) "☑ ".data "☑ ".data :=
    processesTo_of_headFail (fun d hd => headFail_tryBr (by revert d hd; decide))
  have p1 : ProcessesTo (tryBr) "<p>".data "<p>".data :=
    processesTo_fail_cons (fun y => rfl)
      (processesTo_of_headFail (fun d hd => headFail_tryBr (by revert d hd; decide)))
  exact jsReplace_stage u (processesTo_append p0 (p1)) (fun d hd => headFail_tryBr (hlt d hd)) rfl

theorem stage_pClose (u : List Char) (hlt : ∀ c ∈ u, ¬ c = '<') :
    jsReplace (tryLits (ciSpec "</p>") "\n\n".data)
      ("☑ <p>".data ++ (u ++ "</p>".data)) =
    "☑ <p>".data ++ (u ++ "\n\n".data) := by
  have p0 : ProcessesTo (tryLits (ciSpec "</p>") "\n\n".data) "☑ ".data "☑ ".data :=
    processesTo_of_headFail (fun d hd => headFail_pClose (by revert d hd; decide))
  have p1 : ProcessesTo (tryLits (ciSpec "</p>") "\n\n".data) "<p>".data "<p>".data :=
    processesTo_fail_cons (fun y => rfl)
      (processesTo_of_headFail (fun d hd => headFail_pClose (by revert d hd; decide)))
  exact jsReplace_stage u (processesTo_append p0 (p1)) (fun d hd => headFail_pClose (hlt d hd)) rfl

theorem stage_pOpen (u : List Char) (hlt : ∀ c ∈ u, ¬ c = '<') :
    jsReplace (tryTag (ciSpec "<p") [])
      ("☑ <p>".data ++ (u ++ "\n\n".data)) =
    "☑ ".data ++ (u ++ "\n\n".data) := by
  have p0 : ProcessesTo (tryTag (ciSpec "<p") []) "☑ ".data "☑ ".data :=
    processesTo_of_headFail (fun d hd => headFail_pOpen (by revert d hd; decide))
  have p1 : ProcessesTo (tryTag (ciSpec "<p") []) "<p>".data ([] : List Char) :=
    processesTo_match (consumes_tryTag _ _) (fun y => rfl)
  exact jsReplace_stage u (processesTo_append p0 (p1)) (fun d hd => headFail_pOpen (hlt d hd)) rfl

theorem stage_divClose (u : List Char) (h : ∀ c ∈ u, ¬ c = '<') :
    jsReplace (tryLits (ciSpec "</div>") ['\n'])
      ("☑ ".data ++ (u ++ "\n\n".data)) =
    "☑ ".data ++ (u ++ "\n\n".data) := by
  have p0 : ProcessesTo (tryLits (ciSpec "</div>") ['\n']) "☑ ".data "☑ ".data :=
    processesTo_of_headFail (fun d hd => headFail_divClose (by revert d hd; decide))
  exact jsReplace_stage u p0 (fun d hd => headFail_divClose (h d hd)) rfl

theorem stage_divOpen (u : List Char) (h : ∀ c ∈ u, ¬ c = '<') :
    jsReplace (tryTag (ciSpec "<div") [])
      ("☑ ".data ++ (u ++ "\n\n".data)) =
    "☑ ".data ++ (u ++ "\n\n".data) := by
  have p0 : ProcessesTo (tryTag (ciSpec "<div") []) "☑ ".data "☑ ".data :=
    processesTo_of_headFail (fun d hd => headFail_divOpen (by revert d hd; decide))
  exact jsReplace_stage u p0 (fun d hd => headFail_divOpen (h d hd)) rfl

theorem stage_hClose (u : List Char) (h : ∀ c ∈ u, ¬ c = '<') :
    jsReplace (tryLits (ciSpec "</h" ++ [chRange '1' '6', chIs '>']) "\n\n".data)
      ("☑ ".data ++ (u ++ "\n\n".data)) =
    "☑ ".data ++ (u ++ "\n\n".data) := by
  have p0 : ProcessesTo (tryLits (ciSpec "</h" ++ [chRange '1' '6', chIs '>']) "\n\n".data) "☑ ".data "☑ ".data :=
    processesTo_of_headFail (fun d hd => headFail_hClose (by revert d hd; decide))
  exact jsReplace_stage u p0 (fun d hd => headFail_hClose (h d hd)) rfl

theorem stage_hOpen (u : List Char) (h : ∀ c ∈ u, ¬ c = '<') :
    jsReplace (tryTag (ciSpec "<h" ++ [chRange '1' '6']) [])
      ("☑ ".data ++ (u ++ "\n\n".data)) =
    "☑ ".data ++ (u ++ "\n\n".data) := by
  have p0 : ProcessesTo (tryTag (ciSpec "<h" ++ [chRange '1' '6']) []) "☑ ".data "☑ ".data :=
    processesTo_of_headFail (fun d hd => headFail_hOpen (by revert d hd; decide))
  exact jsReplace_stage u p0 (fun d hd => headFail_hOpen (h d hd)) rfl

theorem stage_liClose (u : List Char) (h : ∀ c ∈ u, ¬ c = '<') :
    jsReplace (tryLits (ciSpec "</li>") ['\n'])
      ("☑ ".data ++ (u ++ "\n\n".data)) =
    "☑ ".data ++ (u ++ "\n\n".data) := by
  have p0 : ProcessesTo (tryLits (ciSpec "</li>") ['\n']) "☑ ".data "☑ ".data :=
    processesTo_of_headFail (fun d hd => headFail_liClose (by revert d hd; decide))
  exact jsReplace_stage u p0 (fun d hd => headFail_liClose (h d hd)) rfl

theorem stage_liOpen (u : List Char) (h : ∀ c ∈ u, ¬ c = '<') :
    jsReplace (tryTag (ciSpec "<li") "• ".data)
      ("☑ ".data ++ (u ++ "\n\n".data)) =
    "☑ ".data ++ (u ++ "\n\n".data) := by
  have p0 : ProcessesTo (tryTag (ciSpec "<li") "• ".data) "☑ ".data "☑ ".data :=
    processesTo_of_headFail (fun d hd => headFail_liOpen (by revert d hd; decide))
  exact jsReplace_stage u p0 (fun d hd => headFail_liOpen (h d hd)) rfl

theorem stage_ulol (u : List Char) (h : ∀ c ∈ u, ¬ c = '<') :
    jsReplace (tryUlOl)
      ("☑ ".data ++ (u ++ "\n\n".data)) =
    "☑ ".data ++ (u ++ "\n\n".data) := by
  have p0 : ProcessesTo (tryUlOl) "☑ ".data "☑ ".data :=
    processesTo_of_headFail (fun d hd => headFail_tryUlOl (by revert d hd; decide))
  exact jsReplace_stage u p0 (fun d hd => headFail_tryUlOl (h d hd)) rfl

theorem stage_tdClose (u : List Char) (h : ∀ c ∈ u, ¬ c = '<') :
    jsReplace (tryLits (ciSpec "</td>") ['\t'])
      ("☑ ".data ++ (u ++ "\n\n".data)) =
    "☑ ".data ++ (u ++ "\n\n".data) := by
  have p0 : ProcessesTo (tryLits (ciSpec "</td>") ['\t']) "☑ ".data "☑ ".data :=
    processesTo_of_headFail (fun d hd => headFail_tdClose (by revert d hd; decide))
  exact jsReplace_stage u p0 (fun d hd => headFail_tdClose (h d hd)) rfl

theorem stage_trClose (u : List Char) (h : ∀ c ∈ u, ¬ c = '<') :
    jsReplace (tryLits (ciSpec "</tr>") ['\n'])
      ("☑ ".data ++ (u ++ "\n\n".data)) =
    "☑ ".data ++ (u ++ "\n\n".data) := by
  have p0 : ProcessesTo (tryLits (ciSpec "</tr>") ['\n']) "☑ ".data "☑ ".data :=
    processesTo_of_headFail (fun d hd => headFail_trClose (by revert d hd; decide))
  exact jsReplace_stage u p0 (fun d hd => headFail_trClose (h d hd)) rfl

theorem stage_tdhr (u : List Char) (h : ∀ c ∈ u, ¬ c = '<') :
    jsReplace (tryTag [chIs '<', ciChar 't', chOf ['d', 'D', 'h', 'H', 'r', 'R']] [])
      ("☑ ".data ++ (u ++ "\n\n".data)) =
    "☑ ".data ++ (u ++ "\n\n".data) := by
  have p0 : ProcessesTo (tryTag [chIs '<', ciChar 't', chOf ['d', 'D', 'h', 'H', 'r', 'R']] []) "☑ ".data "☑ ".data :=
    processesTo_of_headFail (fun d hd => headFail_tdhr (by revert d hd; decide))
  exact jsReplace_stage u p0 (fun d hd => headFail_tdhr (h d hd)) rfl

theorem stage_table (u : List Char) (h : ∀ c ∈ u, ¬ c = '<') :
    jsReplace (tryTable)
      ("☑ ".data ++ (u ++ "\n\n".data)) =
    "☑ ".data ++ (u ++ "\n\n".data) := by
  have p0 : ProcessesTo (tryTable) "☑ ".data "☑ ".data :=
    processesTo_of_headFail (fun d hd => headFail_tryTable (by revert d hd; decide))
  exact jsReplace_stage u p0 (fun d hd => headFail_tryTable (h d hd)) rfl

theorem stage_anyTag (u : List Char) (h : ∀ c ∈ u, ¬ c = '<') :
    jsReplace (tryTag [chIs '<'] [])
      ("☑ ".data ++ (u ++ "\n\n".data)) =
    "☑ ".data ++ (u ++ "\n\n".data) := by
  have p0 : ProcessesTo (tryTag [chIs '<'] []) "☑ ".data "☑ ".data :=
    processesTo_of_headFail (fun d hd => headFail_anyTag (by revert d hd; decide))
  exact jsReplace_stage u p0 (fun d hd => headFail_anyTag (h d hd)) rfl

theorem stage_nbsp (u : List Char) (h : ∀ c ∈ u, ¬ c = '&') :
    jsReplace (tryLits (csSpec "&nbsp;") [' '])
      ("☑ ".data ++ (u ++ "\n\n".data)) =
    "☑ ".data ++ (u ++ "\n\n".data) := by
  have p0 : ProcessesTo (tryLits (csSpec "&nbsp;") [' ']) "☑ ".data "☑ ".data :=
    processesTo_of_headFail (fun d hd => headFail_nbsp (by revert d hd; decide))
  exact jsReplace_stage u p0 (fun d hd => headFail_nbsp (h d hd)) rfl

theorem stage_ampEnt (u : List Char) (h : ∀ c ∈ u, ¬ c = '&') :
    jsReplace (tryLits (csSpec "&amp;") ['&'])
      ("☑ ".data ++ (u ++ "\n\n".data)) =
    "☑ ".data ++ (u ++ "\n\n".data) := by
  have p0 : ProcessesTo (tryLits (csSpec "&amp;") ['&']) "☑ ".data "☑ ".data :=
    processesTo_of_headFail (fun d hd => headFail_amp (by revert d hd; decide))
  exact jsReplace_stage u p0 (fun d hd => headFail_amp (h d hd)) rfl

theorem stage_ltEnt (u : List Char) (h : ∀ c ∈ u, ¬ c = '&') :
    jsReplace (tryLits (csSpec "&lt;") ['<'])
      ("☑ ".data ++ (u ++ "\n\n".data)) =
    "☑ ".data ++ (u ++ "\n\n".data) := by
  have p0 : ProcessesTo (tryLits (csSpec "&lt;") ['<']) "☑ ".data "☑ ".data :=
    processesTo_of_headFail (fun d hd => headFail_ltEnt (by revert d hd; decide))
  exact jsReplace_stage u p0 (fun d hd => headFail_ltEnt (h d hd)) rfl

theorem stage_gtEnt (u : List Char) (h : ∀ c ∈ u, ¬ c = '&') :
    jsReplace (tryLits (csSpec "&gt;") ['>'])
      ("☑ ".data ++ (u ++ "\n\n".data)) =
    "☑ ".data ++ (u ++ "\n\n".data) := by
  have p0 : ProcessesTo (tryLits (csSpec "&gt;") ['>']) "☑ ".data "☑ ".data :=
    processesTo_of_headFail (fun d hd => headFail_gtEnt (by revert d hd; decide))
  exact jsReplace_stage u p0 (fun d hd => headFail_gtEnt (h d hd)) rfl

theorem stage_quotEnt (u : List Char) (h : ∀ c ∈ u, ¬ c = '&') :
    jsReplace (tryLits (csSpec "&quot;") ['"'])
      ("☑ ".data ++ (u ++ "\n\n".data)) =
    "☑ ".data ++ (u ++ "\n\n".data) := by
  have p0 : ProcessesTo (tryLits (csSpec "&quot;") ['"']) "☑ ".data "☑ ".data :=
    processesTo_of_headFail (fun d hd => headFail_quotEnt (by revert d hd; decide))
  exact jsReplace_stage u p0 (fun d hd => headFail_quotEnt (h d hd)) rfl

theorem stage_numApos (u : List Char) (h : ∀ c ∈ u, ¬ c = '&') :
    jsReplace (tryLits (csSpec "&#39;") ['\''])
      ("☑ ".data ++ (u ++ "\n\n".data)) =
    "☑ ".data ++ (u ++ "\n\n".data) := by
  have p0 : ProcessesTo (tryLits (csSpec "&#39;") ['\'']) "☑ ".data "☑ ".data :=
    processesTo_of_headFail (fun d hd => headFail_numApos (by revert d hd; decide))
  exact jsReplace_stage u p0 (fun d hd => headFail_numApos (h d hd)) rfl

theorem stage_aposEnt (u : List Char) (h : ∀ c ∈ u, ¬ c = '&') :
    jsReplace (tryLits (csSpec "&apos;") ['\''])
      ("☑ ".data ++ (u ++ "\n\n".data)) =
    "☑ ".data ++ (u ++ "\n\n".data) := by
  have p0 : ProcessesTo (tryLits (csSpec "&apos;") ['\'']) "☑ ".data "☑ ".data :=
    processesTo_of_headFail (fun d hd => headFail_apos (by revert d hd; decide))
  exact jsReplace_stage u p0 (fun d hd => headFail_apos (h d hd)) rfl

theorem stage_nl3 (u : List Char) (h : ∀ c ∈ u, ¬ c = '\n') :
    jsReplace (tryNl3)
      ("☑ ".data ++ (u ++ "\n\n".data)) =
    "☑ ".data ++ (u ++ "\n\n".data) := by
  have p0 : ProcessesTo (tryNl3) "☑ ".data "☑ ".data :=
    processesTo_of_headFail (fun d hd => headFail_tryNl3 (by revert d hd; decide))
  exact jsReplace_stage u p0 (fun d hd => headFail_tryNl3 (h d hd)) rfl

theorem stage_trim (u : List Char) (hne : u ≠ [])
    (hws : ∀ c ∈ u, isJsWs c = true → c = ' ')
    (hlast : u.getLast? ≠ some ' ') :
    jsTrimWs ("☑ ".data ++ (u ++ "\n\n".data)) = "☑ ".data ++ u := by
  obtain ⟨d, v, hrev⟩ : ∃ d v, u.reverse = d :: v := by
    cases hu : u.reverse with
    | nil =>
      have hu' : u = [] := by
        have := congrArg List.reverse hu
        simpa using this
      exact absurd hu' hne
    | cons d v => exact ⟨d, v, rfl⟩
  have hd_mem : d ∈ u := by
    have hd : d ∈ u.reverse := by rw [hrev]; exact List.mem_cons_self d v
    exact List.mem_reverse.mp hd
  have hd_last : u.getLast? = some d := by
    rw [← List.head?_reverse, hrev]
    rfl
  have hd_ne : ¬ d = ' ' := fun h => hlast (by rw [hd_last, h])
  have hd_ws : ¬ isJsWs d = true := fun hdw => hd_ne (hws d hd_mem hdw)
  have hu : u = v.reverse ++ [d] := by
    have := congrArg List.reverse hrev
    simpa using this
  have h1 : ("☑ ".data ++ (u ++ "\n\n".data)).dropWhile isJsWs =
      "☑ ".data ++ (u ++ "\n\n".data) := by
    rw [show ("☑ ".data ++ (u ++ "\n\n".data) : List Char) =
      '☑' :: (' ' :: (u ++ "\n\n".data)) from rfl]
    rw [List.dropWhile_cons, if_neg (by decide)]
  have h2 : ("☑ ".data ++ (u ++ "\n\n".data)).reverse =
      '\n' :: ('\n' :: (d :: (v ++ [' ', '☑']))) := by
    rw [show ("☑ ".data ++ (u ++ "\n\n".data) : List Char) =
      ("☑ ".data ++ u) ++ "\n\n".data from (List.append_assoc _ _ _).symm]
    rw [List.reverse_append, List.reverse_append, hrev]
    rfl
  unfold jsTrimWs
  rw [h1, h2]
  rw [List.dropWhile_cons, if_pos (by decide), List.dropWhile_cons,
    if_pos (by decide), List.dropWhile_cons, if_neg hd_ws]
  rw [List.reverse_cons, List.reverse_append, hu]
  rfl

theorem jsReplace_spaceTab_id :
    ∀ (u : List Char), (∀ c ∈ u, ¬ c = '\t') →
      u.Chain' (fun a b => ¬(a = ' ' ∧ b = ' ')) →
      jsReplace trySpaceTab u = u := by
  intro u
  induction u with
  | nil => intro _ _; rfl
  | cons c cs ih =>
    intro hnt hch
    by_cases hsp : c = ' '
    · have hcs : cs.dropWhile (fun x => x = ' ' || x = '\t') = cs := by
        cases cs with
        | nil => rfl
        | cons e w =>
          have he1 : ¬ e = ' ' := by
            intro he
            exact (List.chain'_cons.mp hch).1 ⟨hsp, he⟩
          have he2 : ¬ e = '\t' := hnt e (by simp)
          rw [List.dropWhile_cons, if_neg (by simp [he1, he2])]
      have hm : trySpaceTab (c :: cs) = some ([' '], cs) := by
        rw [show trySpaceTab (c :: cs) =
          if (c = ' ' || c = '\t') = true then
            some ([' '], cs.dropWhile fun x => x = ' ' || x = '\t')
          else none from rfl]
        rw [if_pos (by simp [hsp]), hcs]
      rw [jsReplace_match consumes_trySpaceTab hm]
      rw [ih (fun d hd => hnt d (List.mem_cons_of_mem c hd)) hch.tail]
      rw [hsp]
      rfl
    · have hc : (c = ' ' || c = '\t') = false := by
        simp [hsp, hnt c (List.mem_cons_self c cs)]
      rw [jsReplace_no_match (headFail_trySpaceTab hc cs)]
      rw [ih (fun d hd => hnt d (List.mem_cons_of_mem c hd)) hch.tail]

theorem stage_spaceTab (u : List Char) (hne : u ≠ [])
    (hnt : ∀ c ∈ u, ¬ c = '\t') (hhead : u.head? ≠ some ' ')
    (hch : u.Chain' (fun a b => ¬(a = ' ' ∧ b = ' '))) :
    jsReplace trySpaceTab ("☑ ".data ++ u) = "☑ ".data ++ u := by
  obtain ⟨e, w, hu⟩ : ∃ e w, u = e :: w := by
    cases u with
    | nil => exact absurd rfl hne
    | cons e w => exact ⟨e, w, rfl⟩
  have he1 : ¬ e = ' ' := fun h => hhead (by rw [hu, h]; rfl)
  have he2 : ¬ e = '\t' := hnt e (by rw [hu]; simp)
  have hdw : u.dropWhile (fun x => x = ' ' || x = '\t') = u := by
    rw [hu, List.dropWhile_cons, if_neg (by simp [he1, he2])]
  rw [show ("☑ ".data ++ u : List Char) = '☑' :: (' ' :: u) from rfl]
  rw [jsReplace_no_match (headFail_trySpaceTab (by decide) (' ' :: u))]
  have hm : trySpaceTab (' ' :: u) = some ([' '], u) := by
    rw [show trySpaceTab (' ' :: u) =
      if ((' ' : Char) = ' ' || (' ' : Char) = '\t') = true then
        some ([' '], u.dropWhile fun x => x = ' ' || x = '\t')
      else none from rfl]
    rw [if_pos (by decide), hdw]
  rw [jsReplace_match consumes_trySpaceTab hm]
  rw [jsReplace_spaceTab_id u hnt hch]
  rfl

/-- C8, counterexample: the document whose paragraph text is `a  b`
(two interior spaces) converts to `☑ a b`, not to `"☑ " ++ "a  b"`:
the final `[ \t]+` normalization collapses the space run, so the output
is not exactly the checkbox marker followed by the paragraph text. -/
theorem enmlToPlainText_not_exact_on_space_runs :
    enmlToPlainText (checklistParagraphDoc "a  b") = "☑ a b" ∧
    ¬ enmlToPlainText (checklistParagraphDoc "a  b") = "☑ " ++ "a  b" := by
  constructor
  · decide
  · decide

/-- C8 as amended: for every paragraph text that is free of markup
characters (`<`, `&`), whose only whitespace is single interior spaces
(no runs, no tabs or newlines, no leading or trailing space), and that is
nonempty, the conversion of the checklist-plus-paragraph document is
exactly `"☑ "` followed by the paragraph text, with no residual tags. -/
theorem enmlToPlainText_checklist_paragraph (u : List Char)
    (hlt : ∀ c ∈ u, ¬ c = '<') (hamp : ∀ c ∈ u, ¬ c = '&')
    (hws : ∀ c ∈ u, isJsWs c = true → c = ' ')
    (hch : u.Chain' (fun a b => ¬(a = ' ' ∧ b = ' ')))
    (hne : u ≠ []) (hhead : u.head? ≠ some ' ')
    (hlast : u.getLast? ≠ some ' ') :
    enmlToPlainText (checklistParagraphDoc (String.mk u)) =
      String.mk ("☑ ".data ++ u) := by
  have hnl : ∀ c ∈ u, ¬ c = '\n' := by
    intro c hc h
    subst h
    exact absurd (hws _ hc (by decide)) (by decide)
  have hnt : ∀ c ∈ u, ¬ c = '\t' := by
    intro c hc h
    subst h
    exact absurd (hws _ hc (by decide)) (by decide)
  have hdata : (checklistParagraphDoc (String.mk u)).data =
      "<?xml version=\"1.0\" encoding=\"UTF-8\"?><!DOCTYPE en-note SYSTEM \"http://xml.evernote.com/pub/enml2.dtd\"><en-note><en-todo checked=\"true\"/><p>".data
        ++ (u ++ "</p></en-note>".data) := by
    rw [checklistParagraphDoc, String.data_append, String.data_append,
      List.append_assoc]
  have hdocne : ¬ checklistParagraphDoc (String.mk u) = "" := by
    intro he
    have hd := congrArg String.data he
    rw [hdata] at hd
    simp at hd
  simp only [enmlToPlainText]
  rw [if_neg hdocne, hdata]
  rw [stage_doctype u hlt]
  rw [stage_xmlDecl u hlt]
  rw [stage_enNote u hlt]
  rw [stage_mediaAlt u hlt]
  rw [stage_media u hlt]
  rw [stage_crypt u hlt]
  rw [stage_todoChecked u hlt]
  rw [stage_todoTag u hlt]
  rw [stage_br u hlt]
  rw [stage_pClose u hlt]
  rw [stage_pOpen u hlt]
  rw [stage_divClose u hlt]
  rw [stage_divOpen u hlt]
  rw [stage_hClose u hlt]
  rw [stage_hOpen u hlt]
  rw [stage_liClose u hlt]
  rw [stage_liOpen u hlt]
  rw [stage_ulol u hlt]
  rw [stage_tdClose u hlt]
  rw [stage_trClose u hlt]
  rw [stage_tdhr u hlt]
  rw [stage_table u hlt]
  rw [stage_anyTag u hlt]
  rw [stage_nbsp u hamp]
  rw [stage_ampEnt u hamp]
  rw [stage_ltEnt u hamp]
  rw [stage_gtEnt u hamp]
  rw [stage_quotEnt u hamp]
  rw [stage_numApos u hamp]
  rw [stage_aposEnt u hamp]
  rw [stage_nl3 u hnl]
  rw [stage_trim u hne hws hlast]
  rw [stage_spaceTab u hne hnt hhead hch]

/-- Witness for the amended C8 at the paragraph text `Buy milk`. -/
theorem enmlToPlainText_checklist_paragraph_witness :
    enmlToPlainText (checklistParagraphDoc (String.mk "Buy milk".data)) =
      String.mk ("☑ ".data ++ "Buy milk".data) :=
  enmlToPlainText_checklist_paragraph "Buy milk".data
    (by decide) (by decide) (by decide)
    (by simp [List.chain'_cons, String.data])
    (by decide) (by decide) (by decide)

end EvernoteMcp
